import Mathlib

/-!
# BitCrack2 KeyFinder: search orchestration

A shallow embedding of `src/BitCrack/KeyFinder/KeyFinder.cpp` (namespace
`KeyFinder`) and of `src/BitCrack/KeyFinder/DeviceManager.cpp` (namespace
`DeviceManager`).

Modelling conventions.

* The `KeyFinder` object is a record of its C++ members.  Everything the object
  reaches through pointers or globals (the bound `KeySearchDevice`, the
  `util::Timer`, the random generator behind `secp256k1::getRandom32`, whatever
  the callbacks touch) lives in one abstract world state `W`; the collaborators
  are the fields of `Env`.  Mutating device operations are state transformers
  of `W`; `getNextKey`, `getMemoryInfo`, `getDeviceName` and `keysPerStep` are
  observers of `W`.
* A 160-bit hash is a value of an arbitrary type `H` with decidable equality
  (`KeySearchTarget` is declared in `KeyFinder.h`); `std::set<KeySearchTarget>`
  is a `Finset H`.
* `secp256k1::uint256` values are natural numbers; `uint64_t` arithmetic is
  reduced modulo `2 ^ 64` explicitly.
* A callback is a C function pointer: `none` is `NULL`, calling it is a crash
  (`none` result of the enclosing function).  A callback acts on the world and
  may call `stop()` on the running object, which it reports through its `Bool`
  result; it calls no other member of the object.
* `trace` is a ghost log of the calls made on the device and the callbacks, in
  chronological order.
* The collaborators are total functions: calls that throw or never return
  (a device exception, a random draw that finds no unused value) are not
  modelled, nor is `Logger`/`printf` output.
* `for (unsigned int i = 0; i < v.size(); i++)` loops are recursions over the
  list `v` (vectors of fewer than `2 ^ 32` elements).
* Two collaborators are also modelled from the spec, for the properties that
  are about them: the draw `secp256k1.getRandom32` and the device `contractEnv`
  that meets the device contract.
-/

namespace KeyFinder

/-- Conversion to `uint64_t`. -/
def u64 (n : Nat) : Nat := n % 18446744073709551616

/-- Modelled from the spec: the three-way comparison `secp256k1::uint256::cmp`
(declared in `secp256k1.h`): negative, zero or positive as `a` is below, equal
to or above `b`. -/
def cmp (a b : Nat) : Int :=
  if a < b then -1 else if b < a then 1 else 0

/-- Point type `secp256k1::ecpoint`. -/
structure ecpoint where
  x : Nat
  y : Nat
deriving DecidableEq, Repr

/-- Record `KeySearchResult` as the device fills it in `getResults`: the members
read by `run()`. -/
structure KeySearchResult (H : Type) where
  privateKey : Nat
  publicKey : ecpoint
  compressed : Bool
  hash : H
deriving DecidableEq, Repr

/-- The `KeySearchResult info` that `run()` hands to the result callback: the
four members `run()` assigns (the `hash` member of `info` is never assigned). -/
structure ResultInfo where
  privateKey : Nat
  publicKey : ecpoint
  compressed : Bool
  address : String
deriving DecidableEq, Repr

/-- Record `KeySearchStatus` handed to the status callback, without the
floating-point member `speed`. -/
structure KeySearchStatus where
  total : Nat
  totalTime : Nat
  freeMemory : Nat
  deviceMemory : Nat
  deviceName : String
  targets : Nat
  nextKey : Nat
  stride : Nat
  rStrideCount : Nat
deriving DecidableEq, Repr

/-- Exception `KeySearchException`: built from a message, or default-built. -/
inductive KeySearchException where
  | withMsg (msg : String)
  | noMsg
deriving DecidableEq, Repr

/-- Ghost log entries: one per call on the device or on a callback. -/
inductive Event (H : Type) where
  | init (startKey : Nat) (compression : Int) (stride : Nat)
  | doStep
  | getResults (count : Int) (results : List (KeySearchResult H))
  | setTargets (targets : Finset H)
  | updateStride (stride : Nat)
  | statusCallback (info : KeySearchStatus) (stopCalled : Bool)
  | resultCallback (info : ResultInfo) (record : KeySearchResult H) (stopCalled : Bool)

/-- The collaborators of `KeyFinder` whose code is outside the file, acting on
the world state `W`. -/
structure Env (W H : Type) where
  /-- Method `KeySearchDevice::init(start, compression, stride)`. -/
  init : Nat → Int → Nat → W → W
  /-- Method `KeySearchDevice::doStep()`. -/
  doStep : W → W
  /-- Method `KeySearchDevice::getResults(results)`: the returned count and the
  contents it leaves in the (initially empty) vector. -/
  getResults : W → (Int × List (KeySearchResult H)) × W
  /-- Method `KeySearchDevice::setTargets(targets)`. -/
  setTargets : Finset H → W → W
  /-- Method `KeySearchDevice::getNextKey()`. -/
  getNextKey : W → Nat
  /-- Method `KeySearchDevice::updateStride(stride)`. -/
  updateStride : Nat → W → W
  /-- Method `KeySearchDevice::getMemoryInfo(free, total)`. -/
  getMemoryInfo : W → Nat × Nat
  /-- Method `KeySearchDevice::getDeviceName()`. -/
  getDeviceName : W → String
  /-- Method `KeySearchDevice::keysPerStep()`. -/
  keysPerStep : W → Nat
  /-- Method `util::Timer::start()` of the timer of `run()`. -/
  timerStart : W → W
  /-- Method `util::Timer::getTime()`: milliseconds since the last start. -/
  timerGetTime : W → Nat
  /-- Function `secp256k1::getRandom32(bits, history)`: the value returned and
  the history it leaves behind (the history is passed by reference). -/
  getRandom32 : Nat → List Nat → W → (Nat × List Nat) × W
  /-- Function `Address::verifyAddress`. -/
  verifyAddress : String → Bool
  /-- Function `Base58::toHash160`. -/
  toHash160 : String → H
  /-- Function `Address::fromPublicKey`. -/
  fromPublicKey : ecpoint → Bool → String
  /-- Composition `util::trim ∘ util::removeNewline` applied to a file line. -/
  trimLine : String → String
  /-- Width in bits of the member `_rStrideCount` (declared in `KeyFinder.h`). -/
  rStrideCountBits : Nat

/-- Type of the status callback: the `Bool` tells whether it called `stop()`. -/
abbrev StatusCallback (W : Type) := KeySearchStatus → W → Bool × W

/-- Type of the result callback: the `Bool` tells whether it called `stop()`. -/
abbrev ResultCallback (W : Type) := ResultInfo → W → Bool × W

end KeyFinder

/-- The members of class `KeyFinder`, the world behind its pointers, and the
ghost trace. -/
structure KeyFinder (W H : Type) [DecidableEq H] where
  total : Nat
  statusInterval : Nat
  compression : Int
  startKey : Nat
  endKey : Nat
  statusCallback : Option (KeyFinder.StatusCallback W)
  resultCallback : Option (KeyFinder.ResultCallback W)
  iterCount : Nat
  stride : Nat
  randomStride : Bool
  continueAfterEnd : Bool
  randomSrtrideBits : Nat
  rStrideCount : Nat
  rStrideHistory : List Nat
  targets : Finset H
  running : Bool
  totalTime : Nat
  world : W
  trace : List (KeyFinder.Event H)

namespace KeyFinder

variable {W H : Type} [DecidableEq H]

/-- Result of a member function that may throw: the object as the call leaves
it, and the exception if one was thrown. -/
structure Outcome (W H : Type) [DecidableEq H] where
  kf : KeyFinder W H
  thrown : Option KeySearchException

/-- The loop body of `setTargets(std::vector<std::string>&)` (lines 65-76),
from index `i` on, `rest` being `targets[i..]`. -/
def setTargetsLoop (env : Env W H) : List String → KeyFinder W H → Outcome W H
  | [], kf => { kf := kf, thrown := none }
  | a :: rest, kf =>
    if !env.verifyAddress a then
      { kf := kf,
        thrown := some (KeySearchException.withMsg ("Invalid address '" ++ a ++ "'")) }
    else
      setTargetsLoop env rest { kf with targets := insert (env.toHash160 a) kf.targets }

/-- Member `KeyFinder::setTargets(std::vector<std::string>& targets)`. -/
def setTargets (env : Env W H) (targets : List String) (kf : KeyFinder W H) : Outcome W H :=
  if targets.length = 0 then
    { kf := kf, thrown := some (KeySearchException.withMsg "Requires at least 1 target") }
  else
    let r := setTargetsLoop env targets { kf with targets := ∅ }
    match r.thrown with
    | some e => { kf := r.kf, thrown := some e }
    | none =>
      { kf := { r.kf with
                world := env.setTargets r.kf.targets r.kf.world,
                trace := r.kf.trace ++ [Event.setTargets r.kf.targets] },
        thrown := none }

/-- The `while (std::getline(inFile, line))` loop of
`setTargets(std::string targetsFile)` (lines 94-110) over the remaining lines. -/
def setTargetsFileLoop (env : Env W H) : List String → KeyFinder W H → Outcome W H
  | [], kf => { kf := kf, thrown := none }
  | line :: rest, kf =>
    let line := env.trimLine line
    if line.length > 0 then
      if !env.verifyAddress line then
        { kf := kf, thrown := some KeySearchException.noMsg }
      else
        setTargetsFileLoop env rest { kf with targets := insert (env.toHash160 line) kf.targets }
    else
      setTargetsFileLoop env rest kf

/-- Member `KeyFinder::setTargets(std::string targetsFile)`; `file` is `none`
when the file cannot be opened, else the lines `std::getline` yields. -/
def setTargetsFile (env : Env W H) (file : Option (List String)) (kf : KeyFinder W H) :
    Outcome W H :=
  match file with
  | none => { kf := kf, thrown := some KeySearchException.noMsg }
  | some lines =>
    let r := setTargetsFileLoop env lines { kf with targets := ∅ }
    match r.thrown with
    | some e => { kf := r.kf, thrown := some e }
    | none =>
      { kf := { r.kf with
                world := env.setTargets r.kf.targets r.kf.world,
                trace := r.kf.trace ++ [Event.setTargets r.kf.targets] },
        thrown := none }

/-- The entries `setTargets(std::string)` takes from the lines of a file: the
trimmed lines that are not empty. -/
def fileEntries (env : Env W H) (lines : List String) : List String :=
  (lines.map env.trimLine).filter (fun l => decide (l.length > 0))

/-- Member `KeyFinder::stop()`. -/
def stop (kf : KeyFinder W H) : KeyFinder W H :=
  { kf with running := false }

/-- Member `KeyFinder::removeTargetFromList(hash)`. -/
def removeTargetFromList (hash : H) (kf : KeyFinder W H) : KeyFinder W H :=
  { kf with targets := kf.targets.erase hash }

/-- Member `KeyFinder::isTargetInList(hash)`. -/
def isTargetInList (hash : H) (kf : KeyFinder W H) : Bool :=
  decide (hash ∈ kf.targets)

/-- Member `KeyFinder::getNextKey()`. -/
def getNextKey (env : Env W H) (kf : KeyFinder W H) : Nat :=
  env.getNextKey kf.world

/-- Member `KeyFinder::reSetupEverything()`. -/
def reSetupEverything (env : Env W H) (kf : KeyFinder W H) : KeyFinder W H :=
  let r := env.getRandom32 kf.randomSrtrideBits kf.rStrideHistory kf.world
  { kf with
    stride := r.1.1,
    rStrideHistory := r.1.2,
    world := env.updateStride r.1.1 r.2,
    trace := kf.trace ++ [Event.updateStride r.1.1],
    rStrideCount := (kf.rStrideCount + 1) % 2 ^ env.rStrideCountBits }

/-- The state of `run()` inside its loop: the object and the locals
`pointsPerIteration` and `prevIterCount`. -/
structure RunState (W H : Type) [DecidableEq H] where
  kf : KeyFinder W H
  pointsPerIteration : Nat
  prevIterCount : Nat

/-- Lines 188-189: `_device->doStep(); _iterCount++;`. -/
def stepDevice (env : Env W H) (s : RunState W H) : RunState W H :=
  { s with kf := { s.kf with
      world := env.doStep s.kf.world,
      trace := s.kf.trace ++ [Event.doStep],
      iterCount := u64 (s.kf.iterCount + 1) } }

/-- Line 198: `count = (_iterCount - prevIterCount) * pointsPerIteration`. -/
def statusCount (s : RunState W H) : Nat :=
  u64 (u64 (s.kf.iterCount + 18446744073709551616 - s.prevIterCount) * s.pointsPerIteration)

/-- Lines 196-222: the snapshot `info` assembled for the status callback. -/
def statusInfo (env : Env W H) (s : RunState W H) : KeySearchStatus :=
  { total := u64 (s.kf.total + statusCount s),
    totalTime := s.kf.totalTime,
    freeMemory := u64 (env.getMemoryInfo s.kf.world).1,
    deviceMemory := u64 (env.getMemoryInfo s.kf.world).2,
    deviceName := env.getDeviceName s.kf.world,
    targets := s.kf.targets.card,
    nextKey := getNextKey env s.kf,
    stride := s.kf.stride,
    rStrideCount := s.kf.rStrideCount }

/-- Lines 191-229: the status update.  `none` when `_statusCallback` is `NULL`
at the call. -/
def updateStatus (env : Env W H) (s : RunState W H) : Option (RunState W H) :=
  let t := u64 (env.timerGetTime s.kf.world)
  if t ≥ s.kf.statusInterval then
    match s.kf.statusCallback with
    | none => none
    | some cb =>
      let r := cb (statusInfo env s) s.kf.world
      some { s with
        kf := { s.kf with
          total := u64 (s.kf.total + statusCount s),
          running := s.kf.running && !r.1,
          world := env.timerStart r.2,
          trace := s.kf.trace ++ [Event.statusCallback (statusInfo env s) r.1],
          totalTime := u64 (s.kf.totalTime + t) },
        prevIterCount := s.kf.iterCount }
  else
    some s

/-- Lines 237-241: the `info` assembled from the device record `results[i]`. -/
def resultInfo (env : Env W H) (r : KeySearchResult H) : ResultInfo :=
  { privateKey := r.privateKey,
    publicKey := r.publicKey,
    compressed := r.compressed,
    address := env.fromPublicKey r.publicKey r.compressed }

/-- Lines 235-244: the loop that hands each record to `_resultCallback`.
`none` when `_resultCallback` is `NULL` at a call. -/
def reportResults (env : Env W H) :
    List (KeySearchResult H) → KeyFinder W H → Option (KeyFinder W H)
  | [], kf => some kf
  | r :: rest, kf =>
    match kf.resultCallback with
    | none => none
    | some cb =>
      let c := cb (resultInfo env r) kf.world
      reportResults env rest { kf with
        running := kf.running && !c.1,
        world := c.2,
        trace := kf.trace ++ [Event.resultCallback (resultInfo env r) r c.1] }

/-- Lines 246-249: the loop that removes the hashes that were found. -/
def removeFound : List (KeySearchResult H) → KeyFinder W H → KeyFinder W H
  | [], kf => kf
  | r :: rest, kf => removeFound rest (removeTargetFromList r.hash kf)

/-- Lines 231-250: pull the results from the device, report them, remove their
hashes. -/
def collectResults (env : Env W H) (s : RunState W H) : Option (RunState W H) :=
  let g := env.getResults s.kf.world
  let kf : KeyFinder W H :=
    { s.kf with world := g.2, trace := s.kf.trace ++ [Event.getResults g.1.1 g.1.2] }
  if g.1.1 > 0 then
    match reportResults env g.1.2 kf with
    | none => none
    | some kf1 => some { s with kf := removeFound g.1.2 kf1 }
  else
    some { s with kf := kf }

/-- Lines 252-257: stop if there are no keys left. -/
def checkTargets (s : RunState W H) : RunState W H :=
  if s.kf.targets.card = 0 then { s with kf := { s.kf with running := false } } else s

/-- The condition of line 260. -/
def rangeExhausted (env : Env W H) (kf : KeyFinder W H) : Bool :=
  decide (cmp (env.getNextKey kf.world) kf.endKey ≥ 0)
    || decide (cmp (env.getNextKey kf.world) kf.startKey < 0)

/-- Lines 259-272: stop, or restride, if the entire range was searched. -/
def checkRange (env : Env W H) (s : RunState W H) : RunState W H :=
  if rangeExhausted env s.kf then
    if s.kf.continueAfterEnd && s.kf.randomStride then
      { s with kf := reSetupEverything env s.kf }
    else
      { s with kf := { s.kf with running := false } }
  else s

/-- Lines 188-250 of the loop body: up to and including the processing of the
results. -/
def processStep (env : Env W H) (s : RunState W H) : Option (RunState W H) :=
  match updateStatus env (stepDevice env s) with
  | none => none
  | some s2 => collectResults env s2

/-- One pass through the body of `while (_running)` (lines 188-272). -/
def iteration (env : Env W H) (s : RunState W H) : Option (RunState W H) :=
  match processStep env s with
  | none => none
  | some s3 => some (checkRange env (checkTargets s3))

/-- How a call of `run()` ends. -/
inductive RunResult (W H : Type) [DecidableEq H] where
  | returned (s : RunState W H)
  | crashed
  | outOfFuel (s : RunState W H)

/-- The loop `while (_running) { ... }` of `run()`, for at most `fuel` passes. -/
def runLoop (env : Env W H) : Nat → RunState W H → RunResult W H
  | 0, s => if s.kf.running then RunResult.outOfFuel s else RunResult.returned s
  | fuel + 1, s =>
    if s.kf.running then
      match iteration env s with
      | none => RunResult.crashed
      | some s1 => runLoop env fuel s1
    else RunResult.returned s

/-- Lines 174-184: the loop state on entry of `run()`. -/
def runEntry (env : Env W H) (kf : KeyFinder W H) : RunState W H :=
  { kf := { kf with running := true, world := env.timerStart kf.world, totalTime := 0 },
    pointsPerIteration := u64 (env.keysPerStep kf.world),
    prevIterCount := 0 }

/-- Member `KeyFinder::run()`, for at most `fuel` passes of its loop. -/
def run (env : Env W H) (fuel : Nat) (kf : KeyFinder W H) : RunResult W H :=
  runLoop env fuel (runEntry env kf)

/-- The state after exactly `k` passes of the loop of `run()` from `s`, when the
loop makes that many. -/
def afterPasses (env : Env W H) : Nat → RunState W H → Option (RunState W H)
  | 0, s => some s
  | k + 1, s =>
    if s.kf.running then
      match iteration env s with
      | none => none
      | some s1 => afterPasses env k s1
    else none

/-- The constructor `KeyFinder::KeyFinder` (lines 21-50).  The members `_running`
and `_totalTime` are not assigned by it: `running0` and `totalTime0` stand for
whatever they hold. -/
def construct (env : Env W H) (startKey endKey : Nat) (compression : Int) (device : W)
    (stride : Nat) (randomStride continueAfterEnd : Bool) (randomSrtrideBits : Nat)
    (running0 : Bool) (totalTime0 : Nat) : KeyFinder W H :=
  let r := env.getRandom32 randomSrtrideBits [] device
  { total := 0,
    statusInterval := 1000,
    compression := compression,
    startKey := startKey,
    endKey := endKey,
    statusCallback := none,
    resultCallback := none,
    iterCount := 0,
    stride := if randomStride then r.1.1 else stride,
    randomStride := randomStride,
    continueAfterEnd := continueAfterEnd,
    randomSrtrideBits := randomSrtrideBits,
    rStrideCount := 0,
    rStrideHistory := if randomStride then r.1.2 else [],
    targets := ∅,
    running := running0,
    totalTime := totalTime0,
    world := if randomStride then r.2 else device,
    trace := [] }

/-- Member `KeyFinder::setResultCallback`. -/
def setResultCallback (callback : Option (ResultCallback W)) (kf : KeyFinder W H) :
    KeyFinder W H :=
  { kf with resultCallback := callback }

/-- Member `KeyFinder::setStatusCallback`. -/
def setStatusCallback (callback : Option (StatusCallback W)) (kf : KeyFinder W H) :
    KeyFinder W H :=
  { kf with statusCallback := callback }

/-- Member `KeyFinder::setStatusInterval`. -/
def setStatusInterval (interval : Nat) (kf : KeyFinder W H) : KeyFinder W H :=
  { kf with statusInterval := u64 interval }

/-- Member `KeyFinder::setTargetsOnDevice()`: the local vector it fills is not
used; it hands `_targets` to the device.  No member in the file calls it. -/
def setTargetsOnDevice (env : Env W H) (kf : KeyFinder W H) : KeyFinder W H :=
  { kf with
    world := env.setTargets kf.targets kf.world,
    trace := kf.trace ++ [Event.setTargets kf.targets] }

/-- Member `KeyFinder::init()`. -/
def init (env : Env W H) (kf : KeyFinder W H) : KeyFinder W H :=
  { kf with
    world := env.init kf.startKey kf.compression kf.stride kf.world,
    trace := kf.trace ++ [Event.init kf.startKey kf.compression kf.stride] }

/-! ### Observers of the ghost trace -/

/-- The device record handed over by a result-callback entry of the trace. -/
def Event.delivered : Event H → Option (KeySearchResult H)
  | Event.resultCallback _ r _ => some r
  | _ => none

/-- The records a `getResults` entry makes `run()` process: the contents of the
vector when the returned count is positive. -/
def Event.pulled : Event H → List (KeySearchResult H)
  | Event.getResults n rs => if n > 0 then rs else []
  | _ => []

/-- Whether the entry is a callback during which `stop()` was called. -/
def Event.stopCalled : Event H → Bool
  | Event.statusCallback _ b => b
  | Event.resultCallback _ _ b => b
  | _ => false

/-- Whether the entry is a `doStep` call. -/
def Event.isDoStep : Event H → Bool
  | Event.doStep => true
  | _ => false

/-- Whether the entry is an `updateStride` call. -/
def Event.isUpdateStride : Event H → Bool
  | Event.updateStride _ => true
  | _ => false

/-- Whether the entry is a device `setTargets` call. -/
def Event.isSetTargets : Event H → Bool
  | Event.setTargets _ => true
  | _ => false

/-- Whether the entry is a device `init` call. -/
def Event.isInit : Event H → Bool
  | Event.init _ _ _ => true
  | _ => false

/-- The device records passed to the result callback, in order. -/
def deliveredRecords (tr : List (Event H)) : List (KeySearchResult H) :=
  tr.filterMap Event.delivered

/-- The device records of the processed `getResults` batches, in order. -/
def pulledRecords (tr : List (Event H)) : List (KeySearchResult H) :=
  tr.flatMap Event.pulled

/-- Number of result-callback invocations for hash `h` recorded in the trace. -/
def deliveredCount (h : H) (tr : List (Event H)) : Nat :=
  (deliveredRecords tr).countP (fun r => decide (r.hash = h))

/-- Number of records for hash `h` in the processed batches of the trace. -/
def pulledCount (h : H) (tr : List (Event H)) : Nat :=
  (pulledRecords tr).countP (fun r => decide (r.hash = h))

/-- Number of `doStep` calls recorded in the trace. -/
def doStepCount (tr : List (Event H)) : Nat :=
  tr.countP Event.isDoStep

/-- The entries the trace of `b` has beyond the trace of `a`. -/
def newEvents (a b : KeyFinder W H) : List (Event H) :=
  b.trace.drop a.trace.length

/-! ### `stop()` called from outside the loop -/

/-- A call of `stop()` arriving from outside the loop when `b` holds. -/
def stopIf (b : Bool) (s : RunState W H) : RunState W H :=
  if b then { s with kf := stop s.kf } else s

/-- One pass through the loop body during which `stop()` may be called from
outside: before line 188 (`m 0`), after line 189 (`m 1`), after the status update
(`m 2`), after the results (`m 3`), after the target check (`m 4`) and after the
range check (`m 5`).  Calls of `stop()` from the callbacks are part of the
callbacks themselves. -/
def iterationWithStops (env : Env W H) (m : Nat → Bool) (s : RunState W H) :
    Option (RunState W H) :=
  match updateStatus env (stopIf (m 1) (stepDevice env (stopIf (m 0) s))) with
  | none => none
  | some s2 =>
    match collectResults env (stopIf (m 2) s2) with
    | none => none
    | some s3 =>
      some (stopIf (m 5) (checkRange env (stopIf (m 4) (checkTargets (stopIf (m 3) s3)))))

/-- The members of the object that no statement of the loop of `run()` assigns. -/
def SameSetup (a b : KeyFinder W H) : Prop :=
  b.statusInterval = a.statusInterval ∧ b.compression = a.compression ∧
  b.startKey = a.startKey ∧ b.endKey = a.endKey ∧
  b.statusCallback = a.statusCallback ∧ b.resultCallback = a.resultCallback ∧
  b.randomStride = a.randomStride ∧ b.continueAfterEnd = a.continueAfterEnd ∧
  b.randomSrtrideBits = a.randomSrtrideBits

/-- The members that only `reSetupEverything` assigns. -/
def SameStride (a b : KeyFinder W H) : Prop :=
  b.stride = a.stride ∧ b.rStrideCount = a.rStrideCount ∧
  b.rStrideHistory = a.rStrideHistory

/-- What the part of a loop pass before the target check does to the object,
`evs` being the trace entries it adds and `k` the number of `doStep` calls
among them. -/
structure Progress (a b : KeyFinder W H) (evs : List (Event H)) (k : Nat) : Prop where
  setup : SameSetup a b
  stride : SameStride a b
  trace : b.trace = a.trace ++ evs
  targets : b.targets = a.targets \ ((pulledRecords evs).map (fun r => r.hash)).toFinset
  delivered : deliveredRecords evs = pulledRecords evs
  running : b.running = (a.running && !(evs.any Event.stopCalled))
  steps : doStepCount evs = k
  others : ∀ e ∈ evs, e.isUpdateStride = false ∧ e.isInit = false ∧ e.isSetTargets = false

/-! ### A scripted device for worked examples -/

/-- World of the worked examples: a device cursor and stride, a clock, the
batches the device will return from `getResults`, and a generator seed. -/
structure DemoWorld where
  cursor : Nat
  step : Nat
  clock : Nat
  script : List (Int × List (KeySearchResult Nat))
  seed : Nat

/-- Collaborators of the worked examples.  Each `doStep` covers four keys and
takes 600 ms; an address is valid when it starts with `1`; its hash is its
length. -/
def demoEnv : Env DemoWorld Nat where
  init := fun start _ stride w => { w with cursor := start, step := stride }
  doStep := fun w => { w with cursor := w.cursor + 4 * w.step, clock := w.clock + 600 }
  getResults := fun w =>
    match w.script with
    | [] => ((0, []), w)
    | b :: bs => (b, { w with script := bs })
  setTargets := fun _ w => w
  getNextKey := fun w => w.cursor
  updateStride := fun st w => { w with step := st }
  getMemoryInfo := fun _ => (1000, 2000)
  getDeviceName := fun _ => "demo"
  keysPerStep := fun _ => 4
  timerStart := fun w => { w with clock := 0 }
  timerGetTime := fun w => w.clock
  getRandom32 := fun bits hist w =>
    ((w.seed % 2 ^ bits, (w.seed % 2 ^ bits) :: hist), { w with seed := w.seed + 1 })
  verifyAddress := fun a => a.toList.head? == some '1'
  toHash160 := fun a => a.length
  fromPublicKey := fun _ _ => "1demo"
  trimLine := fun l => String.mk (l.toList.filter (fun c => c != ' '))
  rStrideCountBits := 64

/-- A callback that does nothing. -/
def quietCallback {A : Type} : A → DemoWorld → Bool × DemoWorld :=
  fun _ w => (false, w)

/-- A callback that calls `stop()`. -/
def stoppingCallback {A : Type} : A → DemoWorld → Bool × DemoWorld :=
  fun _ w => (true, w)

/-- A device record of the worked examples: private key `k`, hash `h`. -/
def demoRecord (k h : Nat) : KeySearchResult Nat :=
  { privateKey := k, publicKey := { x := k, y := k }, compressed := true, hash := h }

/-- A finder of the worked examples over the range `[1, 100)` with stride 1,
both callbacks set, the given flags, targets and device script, initialised. -/
def demoFinder (randomStride continueAfterEnd : Bool) (targets : Finset Nat)
    (script : List (Int × List (KeySearchResult Nat))) : KeyFinder DemoWorld Nat :=
  let w : DemoWorld := { cursor := 0, step := 0, clock := 0, script := script, seed := 5 }
  let kf := construct demoEnv 1 100 1 w 1 randomStride continueAfterEnd 8 false 0
  init demoEnv { setResultCallback (some quietCallback)
    (setStatusCallback (some quietCallback) kf) with targets := targets }

/-- The loop state of `run()` on entry for `demoFinder`. -/
def demoStart (randomStride continueAfterEnd : Bool) (targets : Finset Nat)
    (script : List (Int × List (KeySearchResult Nat))) : RunState DemoWorld Nat :=
  runEntry demoEnv (demoFinder randomStride continueAfterEnd targets script)

/-- Example: a finder whose active target set is `{9}`. -/
def loadedFinder : KeyFinder DemoWorld Nat :=
  demoFinder false false {9} []

/-- Example: three valid addresses, two of them equal. -/
def repeatedAddresses : List String := ["1a", "1bb", "1a"]

/-- Example: two different valid addresses that the example decoder maps to the
same hash. -/
def collidingAddresses : List String := ["1a", "1b"]

/-- Example: a valid address followed by two malformed ones. -/
def brokenAddresses : List String := ["1a", "bb", "cc"]

/-- The loop state after the device step, the status update and the results of
one pass from `s` in the worked examples (`s` itself if that crashes). -/
def demoStep (s : RunState DemoWorld Nat) : RunState DemoWorld Nat :=
  (processStep demoEnv s).getD s

/-- Example: targets 7 and 9; the first batch reports key 42 for hash 7. -/
def foundStart : RunState DemoWorld Nat :=
  demoStart false false {7, 9} [(1, [demoRecord 42 7])]

/-- Example: targets 7 and 9; the first batch holds two records for hash 7. -/
def sameBatchStart : RunState DemoWorld Nat :=
  demoStart false false {7, 9} [(2, [demoRecord 42 7, demoRecord 42 7])]

/-- Example: targets 7 and 9; the first and the second batch each hold a record
for hash 7. -/
def laterBatchStart : RunState DemoWorld Nat :=
  demoStart false false {7, 9} [(1, [demoRecord 42 7]), (1, [demoRecord 42 7])]

/-- Example: the single target 7 is found in the first pass, far from the end of
the range, with `continueAfterEnd` and `randomStride` set. -/
def lastTargetStart : RunState DemoWorld Nat :=
  demoStart true true {7} [(1, [demoRecord 42 7])]

/-- A loop state of the worked examples whose device cursor is at 96, so that
one more step leaves the range `[1, 100)`; targets 7 and 9, nothing found. -/
def nearEndStart (randomStride continueAfterEnd : Bool) : RunState DemoWorld Nat :=
  let s := demoStart randomStride continueAfterEnd {7, 9} []
  { s with kf := { s.kf with world := { s.kf.world with cursor := 96 } } }

/-- The loop state after one pass from `s` in the worked examples (`s` itself
if the pass crashes). -/
def demoPass (s : RunState DemoWorld Nat) : RunState DemoWorld Nat :=
  (iteration demoEnv s).getD s

/-- Example: as `foundStart`, with a result callback that calls `stop()`. -/
def stoppingStart : RunState DemoWorld Nat :=
  { foundStart with kf := setResultCallback (some stoppingCallback) foundStart.kf }

/-- No call of `stop()` from outside the loop. -/
def noStops : Nat → Bool := fun _ => false

/-- A call of `stop()` from outside the loop right after the device step. -/
def stopAfterStep : Nat → Bool := fun i => decide (i = 1)

/-- Whether the call of `run()` ended in a crash. -/
def RunResult.isCrashed : RunResult W H → Bool
  | RunResult.crashed => true
  | _ => false

/-- Whether the entry is a `getResults` call. -/
def Event.isGetResults : Event H → Bool
  | Event.getResults _ _ => true
  | _ => false

/-- Number of `getResults` calls recorded in the trace. -/
def getResultsCount (tr : List (Event H)) : Nat :=
  tr.countP Event.isGetResults

/-- Example: a freshly constructed finder of the worked examples over the range
`[1, 100)` with stride 1, loaded with the one address of hash 7 and initialised;
no callback has been set on it. -/
def freshFinder (script : List (Int × List (KeySearchResult Nat))) :
    KeyFinder DemoWorld Nat :=
  let w : DemoWorld := { cursor := 0, step := 0, clock := 0, script := script, seed := 5 }
  init demoEnv (setTargets demoEnv ["1aaaaaa"]
    (construct demoEnv 1 100 1 w 1 false false 8 false 0)).kf

/-- Example: a finder of the worked examples on which `stop()` was called
before `run()`, with no target and the device cursor already past the range. -/
def stoppedFinder : KeyFinder DemoWorld Nat :=
  let kf := stop (demoFinder false false ∅ [])
  { kf with world := { kf.world with cursor := 500 } }

/-- Example: the single target 7 is found in the pass in which the device
cursor leaves the range `[1, 100)`, with `continueAfterEnd` and `randomStride`
set. -/
def lastTargetAtEndStart : RunState DemoWorld Nat :=
  let s := demoStart true true {7} [(1, [demoRecord 98 7])]
  { s with kf := { s.kf with world := { s.kf.world with cursor := 96 } } }

/-- The loop of lines 286-291 of `LZC`: the first argument is `i + 1` for the
loop index `i` (`0` once `i` has gone below `0`), the second the counter `c`. -/
def LZCLoop (x : Nat) : Nat → Nat → Nat
  | 0, c => c
  | i + 1, c => if 1 &&& (x >>> i) = 0 then LZCLoop x i (u64 (c + 1)) else c

/-- Member `KeyFinder::LZC(uint64_t x)`. -/
def LZC (x : Nat) : Nat :=
  if x = 0 then 64 else LZCLoop x 64 0

/-- The loop of lines 300-305 of `TZC`: the first argument is the number of
indices left (`64 - i`), the second the loop index `i`, the third the counter
`c`. -/
def TZCLoop (x : Nat) : Nat → Nat → Nat → Nat
  | 0, _, c => c
  | n + 1, i, c => if 1 &&& (x >>> i) = 0 then TZCLoop x n (i + 1) (u64 (c + 1)) else c

/-- Member `KeyFinder::TZC(uint64_t x)`. -/
def TZC (x : Nat) : Nat :=
  if x = 0 then 64 else TZCLoop x 64 0 0

/-! ### Observers of the status snapshots -/

/-- The `total` member of the snapshot of a status-callback entry. -/
def Event.statusTotal : Event H → Option Nat
  | Event.statusCallback info _ => some info.total
  | _ => none

/-- The `total` members of the status snapshots of the trace, in order. -/
def statusTotals (tr : List (Event H)) : List Nat :=
  tr.filterMap Event.statusTotal

/-- The status snapshots of the trace, each as the pair of the number of
`doStep` calls made before it (counting from `d`) and its `total` member. -/
def statusTotalsAt : Nat → List (Event H) → List (Nat × Nat)
  | _, [] => []
  | d, e :: tr =>
    match e with
    | Event.doStep => statusTotalsAt (d + 1) tr
    | Event.statusCallback info _ => (d, info.total) :: statusTotalsAt d tr
    | _ => statusTotalsAt d tr

/-- The pairs of successive status snapshots of the trace, each as the triple of
the `total` of the earlier snapshot, the number of `doStep` calls made between
the two, and the `total` of the later snapshot.  `last` is the `total` of the
latest snapshot taken before the trace, if there is one, and `d` the number of
`doStep` calls made since. -/
def successiveTotals : Option Nat → Nat → List (Event H) → List (Nat × Nat × Nat)
  | _, _, [] => []
  | last, d, e :: tr =>
    match e with
    | Event.doStep => successiveTotals last (d + 1) tr
    | Event.statusCallback info _ =>
      match last with
      | some a => (a, d, info.total) :: successiveTotals (some info.total) 0 tr
      | none => successiveTotals (some info.total) 0 tr
    | _ => successiveTotals last d tr

/-- Whether the entry is neither a `doStep` call nor a status callback. -/
def Event.isQuiet : Event H → Bool
  | Event.doStep => false
  | Event.statusCallback _ _ => false
  | _ => true

/-- Whether the pass from `s` takes a status snapshot (line 194). -/
def takesSnapshot (env : Env W H) (s : RunState W H) : Bool :=
  decide (u64 (env.timerGetTime (stepDevice env s).kf.world) ≥ s.kf.statusInterval)

/-- Whether the addition `_total += count` of line 200 in the pass from `s`, if
that pass takes a snapshot, stays below `2 ^ 64`. -/
def totalFits (env : Env W H) (s : RunState W H) : Bool :=
  !takesSnapshot env s
    || decide (s.kf.total + statusCount (stepDevice env s) < 18446744073709551616)

/-- Whether `totalFits` holds in each of the first `k` passes from `s`. -/
def totalFitsFor (env : Env W H) : Nat → RunState W H → Bool
  | 0, _ => true
  | k + 1, s =>
    totalFits env s &&
      match iteration env s with
      | none => true
      | some s1 => totalFitsFor env k s1

/-- Collaborators as in `demoEnv`, with a device that covers `2 ^ 62` keys in
each step. -/
def wideEnv : Env DemoWorld Nat :=
  { demoEnv with
    doStep := fun w =>
      { w with cursor := w.cursor + 4611686018427387904 * w.step, clock := w.clock + 600 },
    keysPerStep := fun _ => 4611686018427387904 }

/-- Example: the loop state on entry of the first `run()` of a finder over the
range `[1, 2 ^ 200)` with stride 1 and the target 7 on the device of `wideEnv`;
the device finds nothing. -/
def wideStart : RunState DemoWorld Nat :=
  let w : DemoWorld := { cursor := 0, step := 0, clock := 0, script := [], seed := 5 }
  let kf := construct wideEnv 1 (2 ^ 200) 1 w 1 false false 8 false 0
  runEntry wideEnv (init wideEnv { setResultCallback (some quietCallback)
    (setStatusCallback (some quietCallback) kf) with targets := {7} })

/-- Example: the finder of `demoFinder` with the targets 7 and 9 and a device
that finds nothing. -/
def idleFinder : KeyFinder DemoWorld Nat :=
  demoFinder false false {7, 9} []

/-! ### Random strides -/

/-- Modelled from the spec: the function `secp256k1::getRandom32(bits, history)`,
whose code is not among the sources: "draw a value uniformly within
`[0, 2^randomStrideBitWidth)`, checked against `strideHistory` and redrawn on
collision, then recorded into history".  `raw` is the stream of raw values of
the generator and `pos` the position reached in it; `fuel` bounds the number of
draws.  The result is the value, the history with the value recorded and the
next position, or `none` when all `fuel` draws collide. -/
def secp256k1.getRandom32 (raw : Nat → Nat) (bits : Nat) (history : List Nat) :
    Nat → Nat → Option (Nat × List Nat × Nat)
  | 0, _ => none
  | fuel + 1, pos =>
    if raw pos % 2 ^ bits ∈ history then secp256k1.getRandom32 raw bits history fuel (pos + 1)
    else some (raw pos % 2 ^ bits, raw pos % 2 ^ bits :: history, pos + 1)

/-- The collaborator `getRandom32` of `env` behaves as the draw of the spec:
whenever some value below `2 ^ bits` is not yet in the history, it returns the
value and the history that `secp256k1.getRandom32` yields on some generator
stream.  (When every value is in the history the draw of the spec never
returns, and nothing is asked of the collaborator.) -/
def DrawsBySpec (env : Env W H) : Prop :=
  ∀ (bits : Nat) (hist : List Nat) (w : W), (∃ u, u < 2 ^ bits ∧ u ∉ hist) →
    ∃ raw fuel pos pos1, secp256k1.getRandom32 raw bits hist fuel pos
      = some ((env.getRandom32 bits hist w).1.1, (env.getRandom32 bits hist w).1.2, pos1)

/-- The stride of an `updateStride` entry. -/
def Event.newStride : Event H → Option Nat
  | Event.updateStride st => some st
  | _ => none

/-- The strides handed to the device by `updateStride`, in order: one per
`reSetupEverything`. -/
def restrides (tr : List (Event H)) : List Nat :=
  tr.filterMap Event.newStride

/-- Collaborators as in `demoEnv`, with a `getRandom32` that runs the draw of
the spec on the generator stream 0, 1, 2, ... -/
def drawEnv : Env DemoWorld Nat :=
  { demoEnv with
    getRandom32 := fun bits hist w =>
      match secp256k1.getRandom32 (fun i => i) bits hist (2 ^ bits) 0 with
      | some r => ((r.1, r.2.1), w)
      | none => ((0, hist), w) }

/-- Example: a finder in random-stride mode with two stride bits over the range
`[1, 100)`, built by the constructor on `drawEnv`, with both callbacks set and
the targets 7 and 9, initialised; its device cursor is already past the range,
so that every pass ends with a restride. -/
def randomFinder : KeyFinder DemoWorld Nat :=
  let w : DemoWorld := { cursor := 0, step := 0, clock := 0, script := [], seed := 5 }
  let kf := init drawEnv { setResultCallback (some quietCallback)
    (setStatusCallback (some quietCallback)
      (construct drawEnv 1 100 1 w 1 true true 2 false 0)) with targets := {7, 9} }
  { kf with world := { kf.world with cursor := 500 } }

/-! ### A device that meets the device contract -/

/-- State of a device that meets the device contract: its cursor and stride,
its own copy of the target set, the matches found since the last `getResults`,
and the clock of the timer of `run()`; beside the device, the notebook of the
caller, in which a callback may write down the private keys it is called
with. -/
structure ContractWorld (H : Type) where
  cursor : Nat
  stride : Nat
  installed : Finset H
  pending : List (KeySearchResult H)
  clock : Nat
  noted : List Nat := []

/-- Parameters of a device that meets the device contract, and of the address
functions: the number of keys per step, the time a step takes, the hash160 and
the public key derived from a private key, the compression flag of its records,
and address validation and decoding. -/
structure Contract (H : Type) where
  keysPerStep : Nat
  stepTime : Nat
  hashOf : Nat → H
  pointOf : Nat → ecpoint
  compressed : Bool
  verify : String → Bool
  decode : String → H

/-- The match record of the contract device for the private key `key`. -/
def Contract.record (c : Contract H) (key : Nat) : KeySearchResult H :=
  { privateKey := key, publicKey := c.pointOf key, compressed := c.compressed,
    hash := c.hashOf key }

/-- The matches of one step of the contract device from the state `w`: the
records of the next `keysPerStep` keys at the current stride whose hash160 is in
the installed target set. -/
def Contract.found (c : Contract H) (w : ContractWorld H) : List (KeySearchResult H) :=
  ((List.range' w.cursor c.keysPerStep w.stride).filter
    (fun key => decide (c.hashOf key ∈ w.installed))).map c.record

/-- Modelled from the spec: a `KeySearchDevice` that meets the device contract of
section 4.5 (no device code is among the sources).  `init` sets the cursor to the
start key and the stride; `doStep` examines the next `keysPerStep` keys at the
stride and advances the cursor past them; `getResults` "drains and clears any
matches found since the last call" and returns their number; `setTargets`
"replaces the device-resident comparison set". -/
def contractEnv (c : Contract H) : Env (ContractWorld H) H where
  init := fun start _ stride w => { w with cursor := start, stride := stride }
  doStep := fun w =>
    { w with
      pending := w.pending ++ c.found w,
      cursor := w.cursor + c.keysPerStep * w.stride,
      clock := w.clock + c.stepTime }
  getResults := fun w => (((w.pending.length : Int), w.pending), { w with pending := [] })
  setTargets := fun t w => { w with installed := t }
  getNextKey := fun w => w.cursor
  updateStride := fun st w => { w with stride := st }
  getMemoryInfo := fun _ => (0, 0)
  getDeviceName := fun _ => "contract"
  keysPerStep := fun _ => c.keysPerStep
  timerStart := fun w => { w with clock := 0 }
  timerGetTime := fun w => w.clock
  getRandom32 := fun _ hist w => ((0, hist), w)
  verifyAddress := c.verify
  toHash160 := c.decode
  fromPublicKey := fun _ _ => "address"
  trimLine := fun l => l
  rStrideCountBits := 64

/-- The end-to-end set-up on the contract device: construct the finder over
`[startKey, endKey)` with the fixed stride 1, register both callbacks, load the
one address `addr`, initialise. -/
def endToEndFinder (c : Contract H) (startKey endKey : Nat) (compression : Int)
    (device : ContractWorld H) (continueAfterEnd : Bool) (randomSrtrideBits : Nat)
    (running0 : Bool) (totalTime0 : Nat) (statusCallback : StatusCallback (ContractWorld H))
    (resultCallback : ResultCallback (ContractWorld H)) (addr : String) :
    KeyFinder (ContractWorld H) H :=
  init (contractEnv c) (setTargets (contractEnv c) [addr]
    (setResultCallback (some resultCallback) (setStatusCallback (some statusCallback)
      (construct (contractEnv c) startKey endKey compression device 1 false continueAfterEnd
        randomSrtrideBits running0 totalTime0)))).kf

/-- Example: a contract device that covers 8 keys in 300 ms; the hash of the
private key `j` is `7 * j + 3`; the one valid address is `"1key42"`, which
decodes to the hash of the private key 42. -/
def demoContract : Contract Nat :=
  { keysPerStep := 8,
    stepTime := 300,
    hashOf := fun j => 7 * j + 3,
    pointOf := fun j => { x := j, y := j + 1 },
    compressed := true,
    verify := fun a => a == "1key42",
    decode := fun _ => 7 * 42 + 3 }

/-- A callback on the contract world that does nothing. -/
def idleCallback {A : Type} : A → ContractWorld Nat → Bool × ContractWorld Nat :=
  fun _ w => (false, w)

/-- Example: the end-to-end finder over `[1, 100)` on `demoContract`. -/
def fortyTwoFinder : KeyFinder (ContractWorld Nat) Nat :=
  endToEndFinder demoContract 1 100 1
    { cursor := 0, stride := 0, installed := ∅, pending := [], clock := 0 }
    false 8 false 0 idleCallback idleCallback "1key42"

end KeyFinder

/-! ## Device enumeration (`src/BitCrack/KeyFinder/DeviceManager.cpp`) -/

namespace DeviceManager

/-- Enumeration `DeviceType` (declared in `DeviceManager.h`). -/
inductive DeviceType where
  | CUDA
  | OpenCL
deriving DecidableEq, Repr

/-- Record `cuda::CudaDeviceInfo`: the members `getDevices` reads. -/
structure CudaDeviceInfo where
  id : Int
  name : String
  mem : Nat
  mpCount : Int
deriving DecidableEq, Repr

/-- Record `DeviceManager::DeviceInfo`. -/
structure DeviceInfo where
  name : String
  type : DeviceType
  id : Int
  physicalId : Int
  memory : Nat
  computeUnits : Int
deriving DecidableEq, Repr

/-- Lines 17-24: the descriptor built for the backend record `c` when the
counter `deviceId` has the given value. -/
def describe (c : CudaDeviceInfo) (deviceId : Int) : DeviceInfo :=
  { name := c.name,
    type := DeviceType.CUDA,
    id := deviceId,
    physicalId := c.id,
    memory := c.mem,
    computeUnits := c.mpCount }

/-- The loop of lines 16-27 over the remaining backend records, with the
current value of `deviceId` and the vector `devices` built so far (fewer than
`2 ^ 31` records). -/
def getDevicesLoop : List CudaDeviceInfo → Int → List DeviceInfo → List DeviceInfo
  | [], _, devices => devices
  | c :: rest, deviceId, devices =>
    getDevicesLoop rest (deviceId + 1) (devices ++ [describe c deviceId])

/-- Function `DeviceManager::getDevices()`.  The argument is the outcome of
`cuda::getDevices()`: the records it returns, or the message of the
`CudaException` it throws; an error result is the `DeviceManagerException`
carrying that message. -/
def getDevices (backend : Except String (List CudaDeviceInfo)) :
    Except String (List DeviceInfo) :=
  match backend with
  | Except.error msg => Except.error msg
  | Except.ok cudaDevices => Except.ok (getDevicesLoop cudaDevices 0 [])

/-- Example: two backend devices whose backend ids are 3 and 1. -/
def twoBackendDevices : List CudaDeviceInfo :=
  [{ id := 3, name := "first", mem := 8000, mpCount := 20 },
   { id := 1, name := "second", mem := 4000, mpCount := 10 }]

end DeviceManager

/-! ## Properties -/

namespace DeviceManager

theorem getDevicesLoop_spec :
    ∀ (l : List CudaDeviceInfo) (d : Int) (acc : List DeviceInfo),
      ∃ tl, getDevicesLoop l d acc = acc ++ tl ∧ tl.length = l.length ∧
        ∀ (i : Nat) (c : CudaDeviceInfo), l[i]? = some c →
          tl[i]? = some (describe c (d + (i : Int))) := by
  intro l
  induction l with
  | nil =>
    intro d acc
    exact ⟨[], by simp [getDevicesLoop], rfl, by simp⟩
  | cons c rest ih =>
    intro d acc
    obtain ⟨tl, h1, h2, h3⟩ := ih (d + 1) (acc ++ [describe c d])
    refine ⟨describe c d :: tl, ?_, by simp [h2], ?_⟩
    · simp only [getDevicesLoop]
      rw [h1]
      simp
    · intro i c1 hi
      cases i with
      | zero =>
        simp only [List.getElem?_cons_zero, Option.some.injEq] at hi
        subst hi
        simp
      | succ j =>
        simp only [List.getElem?_cons_succ] at hi
        have := h3 j c1 hi
        simp only [List.getElem?_cons_succ, this, Option.some.injEq]
        congr 1
        push_cast
        ring

/-- C16: for every list of `n` backend devices returned by `cuda::getDevices`,
`DeviceManager::getDevices` returns `n` descriptors in the same order, the
`i`-th with logical id `i`, physical id the `i`-th backend id, type CUDA, and
name, memory and compute units of the `i`-th backend record. -/
theorem getDevices_enumerates (l : List CudaDeviceInfo) :
    ∃ ds, getDevices (Except.ok l) = Except.ok ds ∧ ds.length = l.length ∧
      ∀ (i : Nat) (c : CudaDeviceInfo), l[i]? = some c →
        ds[i]? = some
          { name := c.name, type := DeviceType.CUDA, id := (i : Int), physicalId := c.id,
            memory := c.mem, computeUnits := c.mpCount } := by
  obtain ⟨tl, h1, h2, h3⟩ := getDevicesLoop_spec l 0 []
  refine ⟨tl, ?_, h2, ?_⟩
  · simp only [getDevices, h1, List.nil_append]
  · intro i c hi
    have := h3 i c hi
    simpa [describe] using this

theorem getDevices_enumerates_witness :
    twoBackendDevices[1]? = some { id := 1, name := "second", mem := 4000, mpCount := 10 } ∧
    getDevices (Except.ok twoBackendDevices) = Except.ok
      [{ name := "first", type := DeviceType.CUDA, id := 0, physicalId := 3, memory := 8000,
         computeUnits := 20 },
       { name := "second", type := DeviceType.CUDA, id := 1, physicalId := 1, memory := 4000,
         computeUnits := 10 }] ∧
    ∃ ds, getDevices (Except.ok twoBackendDevices) = Except.ok ds ∧
      ds.length = twoBackendDevices.length ∧
      ∀ (i : Nat) (c : CudaDeviceInfo), twoBackendDevices[i]? = some c →
        ds[i]? = some
          { name := c.name, type := DeviceType.CUDA, id := (i : Int), physicalId := c.id,
            memory := c.mem, computeUnits := c.mpCount } :=
  ⟨by decide, rfl, getDevices_enumerates twoBackendDevices⟩

end DeviceManager


namespace KeyFinder

set_option linter.unusedSectionVars false
set_option maxRecDepth 100000

variable {W H : Type} [DecidableEq H]

/-! ### The phases of one loop pass -/

theorem sameSetup_refl (a : KeyFinder W H) : SameSetup a a := by
  simp [SameSetup]

theorem sameSetup_trans {a b c : KeyFinder W H} (h1 : SameSetup a b) (h2 : SameSetup b c) :
    SameSetup a c := by
  obtain ⟨a1, a2, a3, a4, a5, a6, a7, a8, a9⟩ := h1
  obtain ⟨b1, b2, b3, b4, b5, b6, b7, b8, b9⟩ := h2
  exact ⟨b1.trans a1, b2.trans a2, b3.trans a3, b4.trans a4, b5.trans a5, b6.trans a6,
    b7.trans a7, b8.trans a8, b9.trans a9⟩

theorem sameStride_trans {a b c : KeyFinder W H} (h1 : SameStride a b) (h2 : SameStride b c) :
    SameStride a c := by
  obtain ⟨a1, a2, a3⟩ := h1
  obtain ⟨b1, b2, b3⟩ := h2
  exact ⟨b1.trans a1, b2.trans a2, b3.trans a3⟩

theorem pulledRecords_append (e1 e2 : List (Event H)) :
    pulledRecords (e1 ++ e2) = pulledRecords e1 ++ pulledRecords e2 := by
  simp [pulledRecords]

theorem deliveredRecords_append (e1 e2 : List (Event H)) :
    deliveredRecords (e1 ++ e2) = deliveredRecords e1 ++ deliveredRecords e2 := by
  simp [deliveredRecords]

theorem doStepCount_append (e1 e2 : List (Event H)) :
    doStepCount (e1 ++ e2) = doStepCount e1 + doStepCount e2 := by
  simp [doStepCount]

theorem progress_refl (a : KeyFinder W H) : Progress a a [] 0 where
  setup := sameSetup_refl a
  stride := ⟨rfl, rfl, rfl⟩
  trace := by simp
  targets := by simp [pulledRecords]
  delivered := by simp [pulledRecords, deliveredRecords]
  running := by simp
  steps := by simp [doStepCount]
  others := by simp

theorem progress_trans {a b c : KeyFinder W H} {e1 e2 : List (Event H)} {k1 k2 : Nat}
    (h1 : Progress a b e1 k1) (h2 : Progress b c e2 k2) :
    Progress a c (e1 ++ e2) (k1 + k2) where
  setup := sameSetup_trans h1.setup h2.setup
  stride := sameStride_trans h1.stride h2.stride
  trace := by rw [h2.trace, h1.trace, List.append_assoc]
  targets := by
    rw [h2.targets, h1.targets, pulledRecords_append]
    ext x
    simp only [Finset.mem_sdiff, List.map_append, List.toFinset_append, Finset.mem_union]
    tauto
  delivered := by
    rw [deliveredRecords_append, pulledRecords_append, h1.delivered, h2.delivered]
  running := by
    rw [h2.running, h1.running, List.any_append]
    cases a.running <;> cases e1.any Event.stopCalled <;> cases e2.any Event.stopCalled <;> rfl
  steps := by rw [doStepCount_append, h1.steps, h2.steps]
  others := by
    intro e he
    rcases List.mem_append.mp he with h | h
    · exact h1.others e h
    · exact h2.others e h

theorem stepDevice_progress (env : Env W H) (s : RunState W H) :
    Progress s.kf (stepDevice env s).kf [Event.doStep] 1 where
  setup := by simp [SameSetup, stepDevice]
  stride := by simp [SameStride, stepDevice]
  trace := by simp [stepDevice]
  targets := by simp [stepDevice, pulledRecords, Event.pulled]
  delivered := by simp [pulledRecords, deliveredRecords, Event.pulled, Event.delivered]
  running := by simp [stepDevice, Event.stopCalled]
  steps := by simp [doStepCount, Event.isDoStep]
  others := by simp [Event.isUpdateStride, Event.isInit, Event.isSetTargets]

theorem updateStatus_progress (env : Env W H) (s s2 : RunState W H)
    (h : updateStatus env s = some s2) :
    ∃ evs, Progress s.kf s2.kf evs 0 := by
  unfold updateStatus at h
  simp only at h
  split at h
  · split at h
    · exact absurd h (by simp)
    · rename_i cb hcb
      simp only [Option.some.injEq] at h
      subst h
      refine ⟨[Event.statusCallback (statusInfo env s) (cb (statusInfo env s) s.kf.world).1], ?_⟩
      constructor
      · simp [SameSetup]
      · simp [SameStride]
      · simp
      · simp [pulledRecords, Event.pulled]
      · simp [pulledRecords, deliveredRecords, Event.pulled, Event.delivered]
      · simp [Event.stopCalled]
      · simp [doStepCount, Event.isDoStep]
      · simp [Event.isUpdateStride, Event.isInit, Event.isSetTargets]
  · simp only [Option.some.injEq] at h
    subst h
    exact ⟨[], progress_refl _⟩

theorem reportResults_spec (env : Env W H) (rs : List (KeySearchResult H)) :
    ∀ (kf kf1 : KeyFinder W H), reportResults env rs kf = some kf1 →
      ∃ evs, kf1.trace = kf.trace ++ evs ∧ deliveredRecords evs = rs ∧
        pulledRecords evs = [] ∧ doStepCount evs = 0 ∧
        kf1.targets = kf.targets ∧ SameSetup kf kf1 ∧ SameStride kf kf1 ∧
        kf1.running = (kf.running && !(evs.any Event.stopCalled)) ∧
        (∀ e ∈ evs, e.isUpdateStride = false ∧ e.isInit = false ∧ e.isSetTargets = false) := by
  induction rs with
  | nil =>
    intro kf kf1 h
    simp only [reportResults, Option.some.injEq] at h
    subst h
    exact ⟨[], by simp [deliveredRecords, pulledRecords, doStepCount, sameSetup_refl, SameStride]⟩
  | cons r rest ih =>
    intro kf kf1 h
    unfold reportResults at h
    simp only at h
    split at h
    · exact absurd h (by simp)
    · rename_i cb hcb
      obtain ⟨evs, h1, h2, h3, h4, h5, h6, h7, h8, h9⟩ := ih _ _ h
      refine ⟨Event.resultCallback (resultInfo env r) r (cb (resultInfo env r) kf.world).1
        :: evs, ?_, ?_, ?_, ?_, ?_, ?_, ?_, ?_, ?_⟩
      · rw [h1]; simp
      · simp only [deliveredRecords] at h2 ⊢
        simp [List.filterMap_cons, Event.delivered, h2]
      · simp only [pulledRecords] at h3 ⊢
        simp [Event.pulled, h3]
      · simp only [doStepCount] at h4 ⊢
        simp [Event.isDoStep, h4]
      · rw [h5]
      · exact sameSetup_trans (by simp [SameSetup]) h6
      · exact sameStride_trans (by simp [SameStride]) h7
      · rw [h8]
        simp only [List.any_cons, Event.stopCalled]
        cases kf.running <;> cases (cb (resultInfo env r) kf.world).1 <;>
          cases evs.any Event.stopCalled <;> rfl
      · intro e he
        rcases List.mem_cons.mp he with h | h
        · subst h
          simp [Event.isUpdateStride, Event.isInit, Event.isSetTargets]
        · exact h9 e h

theorem reportResults_isSome (env : Env W H) (rs : List (KeySearchResult H)) :
    ∀ (kf : KeyFinder W H), kf.resultCallback.isSome = true →
      (reportResults env rs kf).isSome = true := by
  induction rs with
  | nil => intro kf _; simp [reportResults]
  | cons r rest ih =>
    intro kf hcb
    unfold reportResults
    simp only
    split
    · rename_i hnone
      rw [hnone] at hcb
      simp at hcb
    · rename_i cb hsome
      apply ih
      simpa using hcb

theorem removeFound_targets (rs : List (KeySearchResult H)) :
    ∀ (kf : KeyFinder W H),
      (removeFound rs kf).targets = kf.targets \ (rs.map (fun r => r.hash)).toFinset := by
  induction rs with
  | nil => intro kf; simp [removeFound]
  | cons r rest ih =>
    intro kf
    simp only [removeFound]
    rw [ih]
    ext x
    simp only [removeTargetFromList, Finset.mem_sdiff, Finset.mem_erase, List.map_cons,
      List.toFinset_cons, Finset.mem_insert]
    tauto

theorem removeFound_frame (rs : List (KeySearchResult H)) :
    ∀ (kf : KeyFinder W H),
      (removeFound rs kf).trace = kf.trace ∧ (removeFound rs kf).running = kf.running ∧
      (removeFound rs kf).world = kf.world ∧
      SameSetup kf (removeFound rs kf) ∧ SameStride kf (removeFound rs kf) := by
  induction rs with
  | nil => intro kf; simp [removeFound, sameSetup_refl, SameStride]
  | cons r rest ih =>
    intro kf
    simp only [removeFound]
    obtain ⟨h1, h2, h3, h4, h5⟩ := ih (removeTargetFromList r.hash kf)
    refine ⟨by rw [h1]; rfl, by rw [h2]; rfl, by rw [h3]; rfl, ?_, ?_⟩
    · exact sameSetup_trans (by simp [SameSetup, removeTargetFromList]) h4
    · exact sameStride_trans (by simp [SameStride, removeTargetFromList]) h5

theorem collectResults_progress (env : Env W H) (s s3 : RunState W H)
    (h : collectResults env s = some s3) :
    ∃ evs, Progress s.kf s3.kf evs 0 := by
  unfold collectResults at h
  simp only at h
  split at h
  · rename_i hpos
    split at h
    · exact absurd h (by simp)
    · rename_i kf1 hrep
      simp only [Option.some.injEq] at h
      subst h
      obtain ⟨evs, h1, h2, h3, h4, h5, h6, h7, h8, h9⟩ := reportResults_spec env _ _ _ hrep
      obtain ⟨f1, f2, _, f4, f5⟩ := removeFound_frame (env.getResults s.kf.world).1.2 kf1
      refine ⟨Event.getResults (env.getResults s.kf.world).1.1 (env.getResults s.kf.world).1.2
        :: evs, ?_⟩
      constructor
      · exact sameSetup_trans (sameSetup_trans (by simp [SameSetup]) h6) f4
      · exact sameStride_trans (sameStride_trans (by simp [SameStride]) h7) f5
      · simp only [f1, h1]; simp
      · simp only [removeFound_targets, h5]
        simp only [pulledRecords] at h3 ⊢
        simp [Event.pulled, hpos, h3]
      · simp only [pulledRecords, deliveredRecords] at h2 h3 ⊢
        simp [Event.pulled, Event.delivered, hpos, h2, h3]
      · simp only [f2, h8]
        simp [Event.stopCalled]
      · simp only [doStepCount] at h4 ⊢
        simp [Event.isDoStep, h4]
      · intro e he
        rcases List.mem_cons.mp he with h | h
        · subst h
          simp [Event.isUpdateStride, Event.isInit, Event.isSetTargets]
        · exact h9 e h
  · rename_i hpos
    simp only [Option.some.injEq] at h
    subst h
    refine ⟨[Event.getResults (env.getResults s.kf.world).1.1 (env.getResults s.kf.world).1.2],
      ?_⟩
    constructor
    · simp [SameSetup]
    · simp [SameStride]
    · simp
    · simp [pulledRecords, Event.pulled, hpos]
    · simp [pulledRecords, deliveredRecords, Event.pulled, Event.delivered, hpos]
    · simp [Event.stopCalled]
    · simp [doStepCount, Event.isDoStep]
    · simp [Event.isUpdateStride, Event.isInit, Event.isSetTargets]

theorem processStep_progress (env : Env W H) (s s3 : RunState W H)
    (h : processStep env s = some s3) :
    ∃ evs, Progress s.kf s3.kf evs 1 := by
  unfold processStep at h
  split at h
  · exact absurd h (by simp)
  · rename_i s2 h2
    obtain ⟨e2, p2⟩ := updateStatus_progress env _ _ h2
    obtain ⟨e3, p3⟩ := collectResults_progress env _ _ h
    exact ⟨[Event.doStep] ++ e2 ++ e3,
      progress_trans (progress_trans (stepDevice_progress env s) p2) p3⟩

theorem processStep_isSome (env : Env W H) (s : RunState W H)
    (hs : s.kf.statusCallback.isSome = true) (hr : s.kf.resultCallback.isSome = true) :
    (processStep env s).isSome = true := by
  have h2 : ∃ s2, updateStatus env (stepDevice env s) = some s2 := by
    unfold updateStatus
    simp only
    split
    · split
      · rename_i hnone
        simp only [stepDevice] at hnone
        rw [hnone] at hs
        simp at hs
      · exact ⟨_, rfl⟩
    · exact ⟨_, rfl⟩
  obtain ⟨s2, h2⟩ := h2
  obtain ⟨e2, p2⟩ := updateStatus_progress env _ _ h2
  have hr2 : s2.kf.resultCallback.isSome = true := by
    have := p2.setup.2.2.2.2.2.1
    rw [this]
    simpa [stepDevice] using hr
  unfold processStep
  rw [h2]
  simp only
  unfold collectResults
  simp only
  split
  · have := reportResults_isSome env (env.getResults s2.kf.world).1.2
      { s2.kf with world := (env.getResults s2.kf.world).2,
                   trace := s2.kf.trace ++ [Event.getResults (env.getResults s2.kf.world).1.1
                     (env.getResults s2.kf.world).1.2] } (by simpa using hr2)
    split
    · rename_i hnone
      rw [hnone] at this
      simp at this
    · simp
  · simp

theorem checkTargets_frame (s : RunState W H) :
    (checkTargets s).kf.trace = s.kf.trace ∧ (checkTargets s).kf.targets = s.kf.targets ∧
    (checkTargets s).kf.world = s.kf.world ∧
    SameSetup s.kf (checkTargets s).kf ∧ SameStride s.kf (checkTargets s).kf ∧
    (checkTargets s).kf.running = (s.kf.running && !decide (s.kf.targets = ∅)) := by
  unfold checkTargets
  split
  · rename_i h
    have h0 : s.kf.targets = ∅ := Finset.card_eq_zero.mp h
    simp [SameSetup, SameStride, h0]
  · rename_i h
    have h0 : ¬ s.kf.targets = ∅ := fun e => h (Finset.card_eq_zero.mpr e)
    simp [sameSetup_refl, SameStride, h0]

theorem checkRange_frame (env : Env W H) (s : RunState W H) :
    (checkRange env s).kf.targets = s.kf.targets ∧ SameSetup s.kf (checkRange env s).kf ∧
    ((checkRange env s).kf.running = true → s.kf.running = true) ∧
    ∃ tl, (checkRange env s).kf.trace = s.kf.trace ++ tl ∧
      deliveredRecords tl = [] ∧ pulledRecords tl = [] ∧ doStepCount tl = 0 ∧
      tl.any Event.stopCalled = false := by
  unfold checkRange
  split
  · split
    · refine ⟨by simp [reSetupEverything], by simp [SameSetup, reSetupEverything],
        by simp [reSetupEverything],
        ⟨[Event.updateStride (reSetupEverything env s.kf).stride], by simp [reSetupEverything], ?_⟩⟩
      simp [deliveredRecords, pulledRecords, doStepCount, Event.delivered, Event.pulled,
        Event.isDoStep, Event.stopCalled]
    · refine ⟨by simp, by simp [SameSetup], by simp, ⟨[], by simp, ?_⟩⟩
      simp [deliveredRecords, pulledRecords, doStepCount]
  · refine ⟨rfl, sameSetup_refl _, fun h => h, ⟨[], by simp, ?_⟩⟩
    simp [deliveredRecords, pulledRecords, doStepCount]

theorem iteration_eq (env : Env W H) (s s1 : RunState W H) (h : iteration env s = some s1) :
    ∃ s3, processStep env s = some s3 ∧ s1 = checkRange env (checkTargets s3) := by
  unfold iteration at h
  split at h
  · exact absurd h (by simp)
  · rename_i s3 h3
    simp only [Option.some.injEq] at h
    exact ⟨s3, h3, h.symm⟩

/-- Summary of one loop pass: the trace grows by entries among which exactly the
pulled records are delivered and exactly one is a `doStep`, the targets lose
exactly the hashes of the pulled records, the setup is untouched and the running
flag is never set back. -/
theorem iteration_spec (env : Env W H) (s s1 : RunState W H) (h : iteration env s = some s1) :
    ∃ evs, s1.kf.trace = s.kf.trace ++ evs ∧
      deliveredRecords evs = pulledRecords evs ∧
      s1.kf.targets = s.kf.targets \ ((pulledRecords evs).map (fun r => r.hash)).toFinset ∧
      doStepCount evs = 1 ∧ SameSetup s.kf s1.kf ∧
      (s1.kf.running = true → s.kf.running = true ∧ evs.any Event.stopCalled = false) := by
  obtain ⟨s3, h3, rfl⟩ := iteration_eq env s s1 h
  obtain ⟨evs, p⟩ := processStep_progress env s s3 h3
  obtain ⟨c1, c2, _, c4, _, c6⟩ := checkTargets_frame s3
  obtain ⟨r1, r2, r3, tl, r4, r5, r6, r7, r8⟩ := checkRange_frame env (checkTargets s3)
  refine ⟨evs ++ tl, ?_, ?_, ?_, ?_, ?_, ?_⟩
  · rw [r4, c1, p.trace, List.append_assoc]
  · rw [deliveredRecords_append, pulledRecords_append, r5, r6, p.delivered]
  · rw [r1, c2, p.targets, pulledRecords_append, r6, List.append_nil]
  · rw [doStepCount_append, r7, p.steps]
  · exact sameSetup_trans p.setup (sameSetup_trans c4 r2)
  · intro hrun
    have h1 := r3 hrun
    rw [c6, p.running] at h1
    rw [List.any_append, r8]
    revert h1
    cases s.kf.running <;> cases evs.any Event.stopCalled <;> simp

theorem runLoop_stopped (env : Env W H) (fuel : Nat) (s : RunState W H)
    (h : s.kf.running = false) : runLoop env fuel s = RunResult.returned s := by
  cases fuel <;> simp [runLoop, h]

theorem runLoop_pass (env : Env W H) (fuel : Nat) (s s1 : RunState W H)
    (hrun : s.kf.running = true) (h : iteration env s = some s1) :
    runLoop env (fuel + 1) s = runLoop env fuel s1 := by
  simp [runLoop, hrun, h]

theorem runLoop_returned (env : Env W H) :
    ∀ (fuel : Nat) (s out : RunState W H), runLoop env fuel s = RunResult.returned out →
      out.kf.running = false ∧ ∃ j, afterPasses env j s = some out := by
  intro fuel
  induction fuel with
  | zero =>
    intro s out h
    unfold runLoop at h
    split at h
    · exact absurd h (by simp)
    · rename_i hrun
      simp only [RunResult.returned.injEq] at h
      subst h
      exact ⟨by simpa using hrun, 0, rfl⟩
  | succ n ih =>
    intro s out h
    unfold runLoop at h
    split at h
    · rename_i hrun
      split at h
      · exact absurd h (by simp)
      · rename_i s1 h1
        obtain ⟨g1, j, g2⟩ := ih s1 out h
        exact ⟨g1, j + 1, by simp [afterPasses, hrun, h1, g2]⟩
    · rename_i hrun
      simp only [RunResult.returned.injEq] at h
      subst h
      exact ⟨by simpa using hrun, 0, rfl⟩

theorem afterPasses_targets_subset (env : Env W H) :
    ∀ (j : Nat) (s s2 : RunState W H), afterPasses env j s = some s2 →
      s2.kf.targets ⊆ s.kf.targets := by
  intro j
  induction j with
  | zero =>
    intro s s2 h
    simp only [afterPasses, Option.some.injEq] at h
    subst h
    exact Finset.Subset.refl _
  | succ n ih =>
    intro s s2 h
    unfold afterPasses at h
    split at h
    · split at h
      · exact absurd h (by simp)
      · rename_i s1 h1
        obtain ⟨evs, _, _, ht, _⟩ := iteration_spec env s s1 h1
        exact (ih s1 s2 h).trans (by rw [ht]; exact Finset.sdiff_subset)
    · exact absurd h (by simp)

/-! ### Results and the target list -/

/-- C1: once a pass of the loop of `run()` has handed a record with hash `h` to
the result callback, `isTargetInList h` is false at the end of that pass, after
every further number of passes, and in the state with which `run()` returns. -/
theorem delivered_hash_leaves_target_list (env : Env W H) (s s1 : RunState W H) (h : H)
    (hit : iteration env s = some s1)
    (hdel : ∃ r ∈ deliveredRecords (newEvents s.kf s1.kf), r.hash = h) :
    isTargetInList h s1.kf = false ∧
    (∀ j s2, afterPasses env j s1 = some s2 → isTargetInList h s2.kf = false) ∧
    (∀ fuel out, runLoop env fuel s1 = RunResult.returned out →
      isTargetInList h out.kf = false) := by
  obtain ⟨evs, ht, hd, htg, _⟩ := iteration_spec env s s1 hit
  have hnot : h ∉ s1.kf.targets := by
    obtain ⟨r, hr, rfl⟩ := hdel
    have hev : newEvents s.kf s1.kf = evs := by
      simp [newEvents, ht]
    rw [hev, hd] at hr
    rw [htg]
    simp only [Finset.mem_sdiff, List.mem_toFinset, List.mem_map, not_and, not_not]
    intro _
    exact ⟨r, hr, rfl⟩
  have hlater : ∀ j s2, afterPasses env j s1 = some s2 → isTargetInList h s2.kf = false := by
    intro j s2 hj
    have hsub := afterPasses_targets_subset env j s1 s2 hj
    simp only [isTargetInList, decide_eq_false_iff_not]
    exact fun hin => hnot (hsub hin)
  refine ⟨hlater 0 s1 rfl, hlater, ?_⟩
  intro fuel out hout
  obtain ⟨_, j, hj⟩ := runLoop_returned env fuel s1 out hout
  exact hlater j out hj

theorem delivered_hash_leaves_target_list_witness :
    (∃ r ∈ deliveredRecords (newEvents foundStart.kf (demoPass foundStart).kf), r.hash = 7) ∧
    isTargetInList 7 (demoPass foundStart).kf = false :=
  ⟨by decide, (delivered_hash_leaves_target_list demoEnv foundStart (demoPass foundStart) 7
    rfl (by decide)).1⟩

theorem afterPasses_trace (env : Env W H) :
    ∀ (k : Nat) (s s2 : RunState W H), afterPasses env k s = some s2 →
      ∃ evs, s2.kf.trace = s.kf.trace ++ evs ∧ deliveredRecords evs = pulledRecords evs ∧
        doStepCount evs = k := by
  intro k
  induction k with
  | zero =>
    intro s s2 h
    simp only [afterPasses, Option.some.injEq] at h
    subst h
    exact ⟨[], by simp [deliveredRecords, pulledRecords, doStepCount]⟩
  | succ n ih =>
    intro s s2 h
    unfold afterPasses at h
    split at h
    · split at h
      · exact absurd h (by simp)
      · rename_i s1 h1
        obtain ⟨e1, t1, d1, _, c1, _⟩ := iteration_spec env s s1 h1
        obtain ⟨e2, t2, d2, c2⟩ := ih s1 s2 h
        refine ⟨e1 ++ e2, by rw [t2, t1, List.append_assoc], ?_, ?_⟩
        · rw [deliveredRecords_append, pulledRecords_append, d1, d2]
        · rw [doStepCount_append, c1, c2, Nat.add_comm]
    · exact absurd h (by simp)

/-- C2 (as stated, refuted): the device returns two records for hash 7 in one
batch, or one in each of two batches, and the result callback is invoked twice
for hash 7. -/
theorem result_callback_invoked_twice :
    (iteration demoEnv sameBatchStart).map (fun s => deliveredCount 7 s.kf.trace) = some 2 ∧
    (afterPasses demoEnv 2 laterBatchStart).map (fun s => deliveredCount 7 s.kf.trace)
      = some 2 := by
  decide

/-- C2 (amended): over any number of passes of the loop of `run()` the records
handed to the result callback are exactly the records of the batches with a
positive returned count, in order, with no check of earlier reports; so the
number of invocations for `h` equals the number of records for `h` in those
batches, and is at most one when the device returns at most one such record. -/
theorem delivered_records_eq_pulled_records (env : Env W H) (k : Nat) (s s2 : RunState W H)
    (h : H) (hk : afterPasses env k s = some s2) :
    deliveredRecords (newEvents s.kf s2.kf) = pulledRecords (newEvents s.kf s2.kf) ∧
    deliveredCount h (newEvents s.kf s2.kf) = pulledCount h (newEvents s.kf s2.kf) ∧
    (pulledCount h (newEvents s.kf s2.kf) ≤ 1 → deliveredCount h (newEvents s.kf s2.kf) ≤ 1) := by
  obtain ⟨evs, ht, hd, _⟩ := afterPasses_trace env k s s2 hk
  have hev : newEvents s.kf s2.kf = evs := by simp [newEvents, ht]
  rw [hev]
  have hc : deliveredCount h evs = pulledCount h evs := by
    simp only [deliveredCount, pulledCount, hd]
  exact ⟨hd, hc, fun hle => hc ▸ hle⟩

theorem delivered_records_eq_pulled_records_witness :
    (afterPasses demoEnv 2 laterBatchStart).isSome = true ∧
    deliveredCount 7 (newEvents laterBatchStart.kf
        ((afterPasses demoEnv 2 laterBatchStart).getD laterBatchStart).kf)
      = pulledCount 7 (newEvents laterBatchStart.kf
        ((afterPasses demoEnv 2 laterBatchStart).getD laterBatchStart).kf) :=
  ⟨by decide, (delivered_records_eq_pulled_records demoEnv 2 laterBatchStart
    ((afterPasses demoEnv 2 laterBatchStart).getD laterBatchStart) 7 rfl).2.1⟩

/-! ### Leaving the loop -/

theorem newEvents_append (a b : KeyFinder W H) (evs : List (Event H))
    (h : b.trace = a.trace ++ evs) : newEvents a b = evs := by
  simp [newEvents, h]

/-- C3: if the target set is empty once the results of a pass have been
processed, the pass ends with the running flag cleared, whatever the cursor and
the flags; `run()` returns with the state at the end of that pass, in which
exactly one `doStep` has been added. -/
theorem empty_target_set_ends_run (env : Env W H) (s s3 : RunState W H)
    (hp : processStep env s = some s3) (hempty : s3.kf.targets = ∅) :
    ∃ s1, iteration env s = some s1 ∧ s1.kf.running = false ∧
      doStepCount (newEvents s.kf s1.kf) = 1 ∧
      (∀ fuel, runLoop env fuel s1 = RunResult.returned s1) ∧
      (s.kf.running = true → ∀ fuel, runLoop env (fuel + 1) s = RunResult.returned s1) := by
  have hit : iteration env s = some (checkRange env (checkTargets s3)) := by
    simp [iteration, hp]
  obtain ⟨_, _, _, _, _, c6⟩ := checkTargets_frame s3
  obtain ⟨_, _, r3, _⟩ := checkRange_frame env (checkTargets s3)
  have hstop : (checkRange env (checkTargets s3)).kf.running = false := by
    cases hr : (checkRange env (checkTargets s3)).kf.running
    · rfl
    · have := r3 hr
      rw [c6, hempty] at this
      simp at this
  obtain ⟨evs, ht, _, _, hc, _⟩ := iteration_spec env s _ hit
  refine ⟨_, hit, hstop, ?_, fun fuel => runLoop_stopped env fuel _ hstop, ?_⟩
  · rw [newEvents_append _ _ evs ht, hc]
  · intro hrun fuel
    rw [runLoop_pass env fuel s _ hrun hit]
    exact runLoop_stopped env fuel _ hstop

theorem empty_target_set_ends_run_witness :
    (demoStep lastTargetStart).kf.targets = ∅ ∧
    ∃ s1, iteration demoEnv lastTargetStart = some s1 ∧ s1.kf.running = false ∧
      doStepCount (newEvents lastTargetStart.kf s1.kf) = 1 ∧
      (∀ fuel, runLoop demoEnv fuel s1 = RunResult.returned s1) ∧
      (lastTargetStart.kf.running = true →
        ∀ fuel, runLoop demoEnv (fuel + 1) lastTargetStart = RunResult.returned s1) :=
  ⟨by decide, empty_target_set_ends_run demoEnv lastTargetStart (demoStep lastTargetStart)
    rfl (by decide)⟩

theorem cmp_nonneg_iff (a b : Nat) : cmp a b ≥ 0 ↔ a ≥ b := by
  unfold cmp
  split_ifs with h1 h2
  · constructor
    · intro h; omega
    · intro h; omega
  · constructor
    · intro _; omega
    · intro _; decide
  · constructor
    · intro _; omega
    · intro _; decide

theorem cmp_neg_iff (a b : Nat) : cmp a b < 0 ↔ a < b := by
  unfold cmp
  split_ifs with h1 h2
  · constructor
    · intro _; exact h1
    · intro _; decide
  · constructor
    · intro h; omega
    · intro h; omega
  · constructor
    · intro h; omega
    · intro h; omega

theorem rangeExhausted_iff (env : Env W H) (kf : KeyFinder W H) :
    rangeExhausted env kf = true ↔
      (env.getNextKey kf.world ≥ kf.endKey ∨ env.getNextKey kf.world < kf.startKey) := by
  simp only [rangeExhausted, Bool.or_eq_true, decide_eq_true_eq, cmp_nonneg_iff, cmp_neg_iff]

/-- C4: the test of line 260 holds exactly when the device cursor is at or above
`endKey` or below `startKey`; when it holds at the end of a pass and
`continueAfterEnd && randomStride` is false (in particular `continueAfterEnd`
set without `randomStride`), the pass ends with the running flag cleared and
`run()` returns with the state at the end of that pass, the remaining targets
untouched. -/
theorem exhausted_range_ends_run (env : Env W H) (s s3 : RunState W H)
    (hp : processStep env s = some s3) :
    (∀ kf : KeyFinder W H, rangeExhausted env kf = true ↔
      (env.getNextKey kf.world ≥ kf.endKey ∨ env.getNextKey kf.world < kf.startKey)) ∧
    ((env.getNextKey s3.kf.world ≥ s.kf.endKey ∨ env.getNextKey s3.kf.world < s.kf.startKey) →
      (s.kf.continueAfterEnd && s.kf.randomStride) = false →
      ∃ s1, iteration env s = some s1 ∧ s1.kf.running = false ∧
        s1.kf.targets = s3.kf.targets ∧
        (∀ fuel, runLoop env fuel s1 = RunResult.returned s1) ∧
        (s.kf.running = true →
          ∀ fuel, runLoop env (fuel + 1) s = RunResult.returned s1)) := by
  refine ⟨rangeExhausted_iff env, ?_⟩
  intro hcur hflags
  have hit : iteration env s = some (checkRange env (checkTargets s3)) := by
    simp [iteration, hp]
  obtain ⟨evs, p⟩ := processStep_progress env s s3 hp
  obtain ⟨_, c2, c3, c4, _, _⟩ := checkTargets_frame s3
  obtain ⟨b1, b2, b3, b4, b5, b6, b7, b8, b9⟩ := sameSetup_trans p.setup c4
  have hex : rangeExhausted env (checkTargets s3).kf = true := by
    rw [rangeExhausted_iff, c3, b3, b4]
    exact hcur
  have hfl : ((checkTargets s3).kf.continueAfterEnd && (checkTargets s3).kf.randomStride)
      = false := by
    rw [b7, b8]
    exact hflags
  have hstop : (checkRange env (checkTargets s3)).kf.running = false := by
    simp [checkRange, hex, hfl]
  have htg : (checkRange env (checkTargets s3)).kf.targets = s3.kf.targets := by
    rw [(checkRange_frame env (checkTargets s3)).1, c2]
  refine ⟨_, hit, hstop, htg, fun fuel => runLoop_stopped env fuel _ hstop, ?_⟩
  intro hrun fuel
  rw [runLoop_pass env fuel s _ hrun hit]
  exact runLoop_stopped env fuel _ hstop

theorem exhausted_range_ends_run_witness :
    processStep demoEnv (nearEndStart false true) = some (demoStep (nearEndStart false true)) ∧
    (demoEnv.getNextKey (demoStep (nearEndStart false true)).kf.world
        ≥ (nearEndStart false true).kf.endKey ∨
      demoEnv.getNextKey (demoStep (nearEndStart false true)).kf.world
        < (nearEndStart false true).kf.startKey) ∧
    ((nearEndStart false true).kf.continueAfterEnd
      && (nearEndStart false true).kf.randomStride) = false ∧
    ∃ s1, iteration demoEnv (nearEndStart false true) = some s1 ∧ s1.kf.running = false ∧
      s1.kf.targets = (demoStep (nearEndStart false true)).kf.targets ∧
      (∀ fuel, runLoop demoEnv fuel s1 = RunResult.returned s1) ∧
      ((nearEndStart false true).kf.running = true →
        ∀ fuel, runLoop demoEnv (fuel + 1) (nearEndStart false true)
          = RunResult.returned s1) :=
  ⟨rfl, by decide, by decide,
    (exhausted_range_ends_run demoEnv (nearEndStart false true)
      (demoStep (nearEndStart false true)) rfl).2 (by decide) (by decide)⟩

theorem afterPasses_running_ge (env : Env W H) (j : Nat) (s out : RunState W H)
    (hrun : s.kf.running = true) (hout : out.kf.running = false)
    (hj : afterPasses env j s = some out) : 1 ≤ j := by
  cases j with
  | zero =>
    simp only [afterPasses, Option.some.injEq] at hj
    subst hj
    rw [hrun] at hout
    exact absurd hout (by simp)
  | succ n => omega

/-- C5: with `continueAfterEnd` and `randomStride` both set, a pass at whose end
the cursor is outside the range while targets remain and `stop()` was not called
runs `reSetupEverything` exactly once: the restride counter is incremented once,
the stride becomes the value just drawn, the device receives exactly one
`updateStride`, with that value, and no `init` (nothing resets the cursor: it
stays where it was whenever `updateStride` and the generator leave it alone); the
running flag stays set, so the loop makes another `doStep` before `run()` can
return. -/
theorem exhausted_range_restrides (env : Env W H) (s s3 : RunState W H)
    (hc : s.kf.continueAfterEnd = true) (hr : s.kf.randomStride = true)
    (hp : processStep env s = some s3)
    (hcur : env.getNextKey s3.kf.world ≥ s.kf.endKey ∨ env.getNextKey s3.kf.world < s.kf.startKey)
    (hne : s3.kf.targets ≠ ∅) (hrun : s3.kf.running = true) :
    ∃ s1, iteration env s = some s1 ∧
      s1.kf = reSetupEverything env s3.kf ∧
      s1.kf.rStrideCount = (s.kf.rStrideCount + 1) % 2 ^ env.rStrideCountBits ∧
      (s.kf.rStrideCount + 1 < 2 ^ env.rStrideCountBits →
        s1.kf.rStrideCount = s.kf.rStrideCount + 1) ∧
      s1.kf.stride
        = (env.getRandom32 s.kf.randomSrtrideBits s.kf.rStrideHistory s3.kf.world).1.1 ∧
      (newEvents s.kf s1.kf).filter Event.isUpdateStride
        = [Event.updateStride s1.kf.stride] ∧
      (newEvents s.kf s1.kf).filter Event.isInit = [] ∧
      s1.kf.world = env.updateStride s1.kf.stride
        (env.getRandom32 s.kf.randomSrtrideBits s.kf.rStrideHistory s3.kf.world).2 ∧
      ((∀ st w, env.getNextKey (env.updateStride st w) = env.getNextKey w) →
        (∀ b hist w, env.getNextKey (env.getRandom32 b hist w).2 = env.getNextKey w) →
        env.getNextKey s1.kf.world = env.getNextKey s3.kf.world) ∧
      s1.kf.running = true ∧
      (∀ fuel, runLoop env (fuel + 1) s = runLoop env fuel s1) ∧
      (∀ fuel out, runLoop env fuel s1 = RunResult.returned out →
        doStepCount s1.kf.trace < doStepCount out.kf.trace) := by
  have hit : iteration env s = some (checkRange env (checkTargets s3)) := by
    simp [iteration, hp]
  obtain ⟨evs, p⟩ := processStep_progress env s s3 hp
  obtain ⟨b1, b2, b3, b4, b5, b6, b7, b8, b9⟩ := p.setup
  obtain ⟨d1, d2, d3⟩ := p.stride
  have hct : checkTargets s3 = s3 := by
    unfold checkTargets
    rw [if_neg]
    exact fun h0 => hne (Finset.card_eq_zero.mp h0)
  have hex : rangeExhausted env s3.kf = true := by
    rw [rangeExhausted_iff, b3, b4]
    exact hcur
  have hfl : (s3.kf.continueAfterEnd && s3.kf.randomStride) = true := by
    rw [b7, b8, hc, hr]
    rfl
  have hkf : (checkRange env (checkTargets s3)).kf = reSetupEverything env s3.kf := by
    rw [hct]
    simp [checkRange, hex, hfl]
  have hs0 : s.kf.running = true := by
    have := p.running
    rw [hrun] at this
    revert this
    cases s.kf.running <;> simp
  have hrun1 : (checkRange env (checkTargets s3)).kf.running = true := by
    rw [hkf]
    simpa [reSetupEverything] using hrun
  have hnew : newEvents s.kf (checkRange env (checkTargets s3)).kf
      = evs ++ [Event.updateStride (reSetupEverything env s3.kf).stride] := by
    apply newEvents_append
    rw [hkf]
    simp [reSetupEverything, p.trace]
  have hnoU : evs.filter Event.isUpdateStride = [] := by
    rw [List.filter_eq_nil_iff]
    intro e he
    simp [(p.others e he).1]
  have hnoI : evs.filter Event.isInit = [] := by
    rw [List.filter_eq_nil_iff]
    intro e he
    simp [(p.others e he).2.1]
  refine ⟨_, hit, hkf, ?_, ?_, ?_, ?_, ?_, ?_, ?_, hrun1, ?_, ?_⟩
  · rw [hkf]
    simp [reSetupEverything, d2]
  · intro hlt
    rw [hkf]
    simp only [reSetupEverything, d2]
    exact Nat.mod_eq_of_lt hlt
  · rw [hkf]
    simp [reSetupEverything, d3, b9]
  · rw [hnew, hkf, List.filter_append, hnoU]
    simp [Event.isUpdateStride]
  · rw [hnew, List.filter_append, hnoI]
    simp [Event.isInit]
  · rw [hkf]
    simp [reSetupEverything, d3, b9]
  · intro hu hg
    rw [hkf]
    simp [reSetupEverything, hu, hg]
  · intro fuel
    exact runLoop_pass env fuel s _ hs0 hit
  · intro fuel out hout
    obtain ⟨hstopped, j, hj⟩ := runLoop_returned env fuel _ out hout
    have hge := afterPasses_running_ge env j _ out hrun1 hstopped hj
    obtain ⟨e2, t2, _, c2⟩ := afterPasses_trace env j _ out hj
    rw [t2, doStepCount_append, c2]
    omega

theorem exhausted_range_restrides_witness :
    (nearEndStart true true).kf.continueAfterEnd = true ∧
    (nearEndStart true true).kf.randomStride = true ∧
    (demoEnv.getNextKey (demoStep (nearEndStart true true)).kf.world
        ≥ (nearEndStart true true).kf.endKey ∨
      demoEnv.getNextKey (demoStep (nearEndStart true true)).kf.world
        < (nearEndStart true true).kf.startKey) ∧
    (demoStep (nearEndStart true true)).kf.targets ≠ ∅ ∧
    (demoStep (nearEndStart true true)).kf.running = true ∧
    ∃ s1, iteration demoEnv (nearEndStart true true) = some s1 ∧
      s1.kf.rStrideCount = ((nearEndStart true true).kf.rStrideCount + 1) % 2 ^ 64 ∧
      s1.kf.running = true :=
  ⟨by decide, by decide, by decide, by decide, by decide,
    (exhausted_range_restrides demoEnv (nearEndStart true true)
      (demoStep (nearEndStart true true)) (by decide) (by decide) rfl (by decide) (by decide)
      (by decide)).imp (fun _ h => ⟨h.1, h.2.2.1, h.2.2.2.2.2.2.2.2.2.1⟩)⟩

/-! ### Loading targets -/

theorem setTargetsLoop_valid (env : Env W H) :
    ∀ (l : List String) (kf : KeyFinder W H), (∀ a ∈ l, env.verifyAddress a = true) →
      setTargetsLoop env l kf =
        { kf := { kf with targets := kf.targets ∪ (l.map env.toHash160).toFinset },
          thrown := none } := by
  intro l
  induction l with
  | nil =>
    intro kf _
    simp [setTargetsLoop]
  | cons a rest ih =>
    intro kf hv
    have ha : env.verifyAddress a = true := hv a (List.mem_cons_self a rest)
    have hrest : ∀ x ∈ rest, env.verifyAddress x = true :=
      fun x hx => hv x (List.mem_cons_of_mem a hx)
    simp only [setTargetsLoop, ha, Bool.not_true, Bool.false_eq_true, if_false]
    rw [ih _ hrest]
    simp only [List.map_cons, List.toFinset_cons, Finset.insert_union, Finset.union_insert]

theorem setTargetsLoop_invalid (env : Env W H) :
    ∀ (pre : List String) (a : String) (post : List String) (kf : KeyFinder W H),
      (∀ x ∈ pre, env.verifyAddress x = true) → env.verifyAddress a = false →
      setTargetsLoop env (pre ++ a :: post) kf =
        { kf := { kf with targets := kf.targets ∪ (pre.map env.toHash160).toFinset },
          thrown := some (KeySearchException.withMsg ("Invalid address '" ++ a ++ "'")) } := by
  intro pre
  induction pre with
  | nil =>
    intro a post kf _ ha
    simp [setTargetsLoop, ha]
  | cons b rest ih =>
    intro a post kf hv ha
    have hb : env.verifyAddress b = true := hv b (List.mem_cons_self b rest)
    have hrest : ∀ x ∈ rest, env.verifyAddress x = true :=
      fun x hx => hv x (List.mem_cons_of_mem b hx)
    rw [List.cons_append]
    simp only [setTargetsLoop, hb, Bool.not_true, Bool.false_eq_true, if_false]
    rw [ih a post _ hrest ha]
    simp only [List.map_cons, List.toFinset_cons, Finset.insert_union, Finset.union_insert]

theorem first_invalid_split (env : Env W H) :
    ∀ (l : List String), (∃ a ∈ l, env.verifyAddress a = false) →
      ∃ pre a post, l = pre ++ a :: post ∧ (∀ x ∈ pre, env.verifyAddress x = true) ∧
        env.verifyAddress a = false := by
  intro l
  induction l with
  | nil =>
    intro h
    obtain ⟨a, ha, _⟩ := h
    exact absurd ha (List.not_mem_nil a)
  | cons b rest ih =>
    intro h
    cases hb : env.verifyAddress b with
    | false => exact ⟨[], b, rest, rfl, by simp, hb⟩
    | true =>
      have hrest : ∃ a ∈ rest, env.verifyAddress a = false := by
        obtain ⟨a, ha, hbad⟩ := h
        rcases List.mem_cons.mp ha with h1 | h1
        · subst h1
          rw [hb] at hbad
          exact absurd hbad (by simp)
        · exact ⟨a, h1, hbad⟩
      obtain ⟨pre, a, post, h1, h2, h3⟩ := ih hrest
      refine ⟨b :: pre, a, post, by rw [h1]; rfl, ?_, h3⟩
      intro x hx
      rcases List.mem_cons.mp hx with h4 | h4
      · rw [h4]; exact hb
      · exact h2 x h4

theorem setTargets_valid (env : Env W H) (l : List String) (kf : KeyFinder W H)
    (hne : l ≠ []) (hv : ∀ a ∈ l, env.verifyAddress a = true) :
    setTargets env l kf =
      { kf := { kf with
                targets := (l.map env.toHash160).toFinset,
                world := env.setTargets (l.map env.toHash160).toFinset kf.world,
                trace := kf.trace ++ [Event.setTargets (l.map env.toHash160).toFinset] },
        thrown := none } := by
  have hlen : ¬ l.length = 0 := fun h => hne (List.length_eq_zero.mp h)
  simp only [setTargets, hlen, if_false]
  rw [setTargetsLoop_valid env l _ hv]
  simp

theorem setTargets_invalid (env : Env W H) (pre : List String) (a : String)
    (post : List String) (kf : KeyFinder W H)
    (hv : ∀ x ∈ pre, env.verifyAddress x = true) (ha : env.verifyAddress a = false) :
    setTargets env (pre ++ a :: post) kf =
      { kf := { kf with targets := (pre.map env.toHash160).toFinset },
        thrown := some (KeySearchException.withMsg ("Invalid address '" ++ a ++ "'")) } := by
  have hlen : ¬ (pre ++ a :: post).length = 0 := by simp
  simp only [setTargets, hlen, if_false]
  rw [setTargetsLoop_invalid env pre a post _ hv ha]
  simp

/-- C6 (as stated, refuted): on a list of two different addresses that both
pass `verifyAddress` and decode to the same hash, `setTargets` returns normally
and leaves a target set of size one, although the list holds two distinct valid
addresses. -/
theorem setTargets_size_counts_hashes :
    collidingAddresses ≠ [] ∧
    (∀ a ∈ collidingAddresses, demoEnv.verifyAddress a = true) ∧
    collidingAddresses.dedup.length = 2 ∧
    (setTargets demoEnv collidingAddresses loadedFinder).thrown = none ∧
    (setTargets demoEnv collidingAddresses loadedFinder).kf.targets = {2} ∧
    (setTargets demoEnv collidingAddresses loadedFinder).kf.targets.card = 1 ∧
    (setTargets demoEnv collidingAddresses loadedFinder).kf.targets.card
      ≠ collidingAddresses.dedup.length := by
  decide

/-- C6 (amended): for a non-empty list of addresses that all pass
`verifyAddress`, `setTargets` returns normally, replaces the target set,
whatever it held, by the set of the decoded hashes, so that its size is the
number of distinct decoded hashes, which is the number of distinct addresses of
the list exactly when decoding does not identify two addresses of the list, and
hands that same set to the device `setTargets`, in one call. -/
theorem setTargets_installs_decoded_set (env : Env W H) (l : List String) (kf : KeyFinder W H)
    (hne : l ≠ []) (hv : ∀ a ∈ l, env.verifyAddress a = true) :
    (setTargets env l kf).thrown = none ∧
    (setTargets env l kf).kf.targets = (l.map env.toHash160).toFinset ∧
    (∀ h, h ∈ (setTargets env l kf).kf.targets ↔ ∃ a ∈ l, env.toHash160 a = h) ∧
    (setTargets env l kf).kf.targets.card = (l.map env.toHash160).dedup.length ∧
    ((setTargets env l kf).kf.targets.card = l.dedup.length ↔
      ∀ a ∈ l, ∀ b ∈ l, env.toHash160 a = env.toHash160 b → a = b) ∧
    (setTargets env l kf).kf.trace
      = kf.trace ++ [Event.setTargets (setTargets env l kf).kf.targets] ∧
    (setTargets env l kf).kf.world
      = env.setTargets (setTargets env l kf).kf.targets kf.world := by
  rw [setTargets_valid env l kf hne hv]
  have himg : (l.map env.toHash160).toFinset = (l.dedup.map env.toHash160).toFinset := by
    ext x
    simp
  refine ⟨rfl, rfl, ?_, ?_, ⟨?_, ?_⟩, rfl, rfl⟩
  · intro h
    simp
  · exact List.card_toFinset _
  · intro hcard a ha b hb hab
    have hcard2 : (l.dedup.map env.toHash160).dedup.length
        = (l.dedup.map env.toHash160).length := by
      rw [← List.card_toFinset, ← himg, List.length_map]
      exact hcard
    have hnd : (l.dedup.map env.toHash160).Nodup := by
      rw [← List.dedup_eq_self]
      exact List.Sublist.eq_of_length (List.dedup_sublist _) hcard2
    exact List.inj_on_of_nodup_map hnd (List.mem_dedup.mpr ha) (List.mem_dedup.mpr hb) hab
  · intro hinj
    show (l.map env.toHash160).toFinset.card = l.dedup.length
    have hnd : (l.dedup.map env.toHash160).Nodup := by
      apply List.Nodup.map_on _ (List.nodup_dedup l)
      intro a ha b hb hab
      exact hinj a (List.mem_dedup.mp ha) b (List.mem_dedup.mp hb) hab
    rw [himg, List.toFinset_card_of_nodup hnd, List.length_map]

theorem setTargets_installs_decoded_set_witness :
    repeatedAddresses ≠ [] ∧ (∀ a ∈ repeatedAddresses, demoEnv.verifyAddress a = true) ∧
    (setTargets demoEnv repeatedAddresses loadedFinder).kf.targets = {2, 3} ∧
    (setTargets demoEnv repeatedAddresses loadedFinder).kf.targets.card = 2 ∧
    repeatedAddresses.length = 3 ∧
    (setTargets demoEnv repeatedAddresses loadedFinder).kf.targets
      = (repeatedAddresses.map demoEnv.toHash160).toFinset :=
  ⟨by decide, by decide, by decide, by decide, by decide,
    (setTargets_installs_decoded_set demoEnv repeatedAddresses loadedFinder
      (by decide) (by decide)).2.1⟩

/-- C7 (as stated, refuted): on a list whose second address is malformed,
`setTargets` throws and leaves a target set that holds the hash of the valid
first address and is not the set `{9}` that was active before the call. -/
theorem setTargets_failure_keeps_partial_set :
    (setTargets demoEnv brokenAddresses loadedFinder).thrown.isSome = true ∧
    loadedFinder.targets = {9} ∧
    (setTargets demoEnv brokenAddresses loadedFinder).kf.targets = {2} ∧
    demoEnv.toHash160 "1a" ∈ (setTargets demoEnv brokenAddresses loadedFinder).kf.targets ∧
    (setTargets demoEnv brokenAddresses loadedFinder).kf.targets ≠ loadedFinder.targets := by
  decide

/-- C7 (amended): on a list that contains a malformed address `setTargets`
throws and never calls the device `setTargets` (trace and world are as before
the call), but the target set of the object is not restored: it holds exactly
the hashes of the valid addresses that precede the first malformed one. -/
theorem setTargets_failure_state (env : Env W H) (l : List String) (kf : KeyFinder W H)
    (hbad : ∃ a ∈ l, env.verifyAddress a = false) :
    ∃ pre a post, l = pre ++ a :: post ∧ (∀ x ∈ pre, env.verifyAddress x = true) ∧
      env.verifyAddress a = false ∧
      (setTargets env l kf).thrown.isSome = true ∧
      (setTargets env l kf).kf.targets = (pre.map env.toHash160).toFinset ∧
      (setTargets env l kf).kf.trace = kf.trace ∧
      (setTargets env l kf).kf.world = kf.world := by
  obtain ⟨pre, a, post, hl, hv, ha⟩ := first_invalid_split env l hbad
  refine ⟨pre, a, post, hl, hv, ha, ?_⟩
  rw [hl, setTargets_invalid env pre a post kf hv ha]
  exact ⟨rfl, rfl, rfl, rfl⟩

theorem setTargets_failure_state_witness :
    (∃ a ∈ brokenAddresses, demoEnv.verifyAddress a = false) ∧
    ∃ pre a post, brokenAddresses = pre ++ a :: post ∧
      (∀ x ∈ pre, demoEnv.verifyAddress x = true) ∧ demoEnv.verifyAddress a = false ∧
      (setTargets demoEnv brokenAddresses loadedFinder).thrown.isSome = true ∧
      (setTargets demoEnv brokenAddresses loadedFinder).kf.targets
        = (pre.map demoEnv.toHash160).toFinset ∧
      (setTargets demoEnv brokenAddresses loadedFinder).kf.trace = loadedFinder.trace ∧
      (setTargets demoEnv brokenAddresses loadedFinder).kf.world = loadedFinder.world :=
  ⟨by decide, setTargets_failure_state demoEnv brokenAddresses loadedFinder (by decide)⟩

/-- C8: `setTargets` throws exactly when the list is empty or holds an address
that fails `verifyAddress`; on the empty list the object is left as it was and
the message is the fixed one; on a list with invalid entries the message quotes
the first invalid address in list order. -/
theorem setTargets_throws_iff (env : Env W H) (l : List String) (kf : KeyFinder W H) :
    ((setTargets env l kf).thrown.isSome = true ↔
      (l = [] ∨ ∃ a ∈ l, env.verifyAddress a = false)) ∧
    (l = [] → setTargets env l kf =
      { kf := kf, thrown := some (KeySearchException.withMsg "Requires at least 1 target") }) ∧
    (∀ pre a post, l = pre ++ a :: post → (∀ x ∈ pre, env.verifyAddress x = true) →
      env.verifyAddress a = false →
      (setTargets env l kf).thrown
        = some (KeySearchException.withMsg ("Invalid address '" ++ a ++ "'"))) := by
  refine ⟨?_, ?_, ?_⟩
  · constructor
    · intro hthrown
      by_cases hne : l = []
      · exact Or.inl hne
      · right
        by_contra hall
        have hv : ∀ a ∈ l, env.verifyAddress a = true := by
          intro a ha
          cases hva : env.verifyAddress a with
          | true => rfl
          | false => exact absurd ⟨a, ha, hva⟩ hall
        rw [setTargets_valid env l kf hne hv] at hthrown
        exact absurd hthrown (by simp)
    · intro h
      rcases h with h | h
      · subst h
        simp [setTargets]
      · obtain ⟨pre, a, post, hl, hv, ha⟩ := first_invalid_split env l h
        rw [hl, setTargets_invalid env pre a post kf hv ha]
        rfl
  · intro h
    subst h
    simp [setTargets]
  · intro pre a post hl hv ha
    rw [hl, setTargets_invalid env pre a post kf hv ha]

theorem setTargets_throws_iff_witness :
    brokenAddresses = ["1a"] ++ "bb" :: ["cc"] ∧
    (∀ x ∈ ["1a"], demoEnv.verifyAddress x = true) ∧ demoEnv.verifyAddress "bb" = false ∧
    (setTargets demoEnv brokenAddresses loadedFinder).thrown
      = some (KeySearchException.withMsg ("Invalid address '" ++ "bb" ++ "'")) :=
  ⟨by decide, by decide, by decide,
    (setTargets_throws_iff demoEnv brokenAddresses loadedFinder).2.2 ["1a"] "bb" ["cc"]
      (by decide) (by decide) (by decide)⟩

theorem fileEntries_cons (env : Env W H) (line : String) (rest : List String) :
    fileEntries env (line :: rest) =
      if (env.trimLine line).length > 0 then env.trimLine line :: fileEntries env rest
      else fileEntries env rest := by
  simp only [fileEntries, List.map_cons, List.filter_cons]
  split_ifs <;> simp_all

theorem setTargetsFileLoop_eq (env : Env W H) :
    ∀ (lines : List String) (kf : KeyFinder W H),
      (setTargetsFileLoop env lines kf).kf
        = (setTargetsLoop env (fileEntries env lines) kf).kf ∧
      (setTargetsFileLoop env lines kf).thrown.isSome
        = (setTargetsLoop env (fileEntries env lines) kf).thrown.isSome := by
  intro lines
  induction lines with
  | nil =>
    intro kf
    simp [setTargetsFileLoop, setTargetsLoop, fileEntries]
  | cons line rest ih =>
    intro kf
    rw [fileEntries_cons]
    simp only [setTargetsFileLoop]
    by_cases hlen : (env.trimLine line).length > 0
    · simp only [hlen, if_true, setTargetsLoop]
      cases hv : env.verifyAddress (env.trimLine line)
      · simp
      · simpa using ih _
    · simp only [hlen, if_false]
      exact ih kf

/-- Outside the empty input, loading from a file and loading the list of its
trimmed non-empty lines leave the same object and fail in the same cases. -/
theorem setTargetsFile_agrees (env : Env W H) (lines : List String) (kf : KeyFinder W H)
    (hne : fileEntries env lines ≠ []) :
    (setTargetsFile env (some lines) kf).kf = (setTargets env (fileEntries env lines) kf).kf ∧
    (setTargetsFile env (some lines) kf).thrown.isSome
      = (setTargets env (fileEntries env lines) kf).thrown.isSome := by
  have hlen : ¬ (fileEntries env lines).length = 0 := fun h => hne (List.length_eq_zero.mp h)
  obtain ⟨h1, h2⟩ := setTargetsFileLoop_eq env lines { kf with targets := ∅ }
  simp only [setTargetsFile, setTargets, hlen, if_false]
  cases hf : (setTargetsFileLoop env lines { kf with targets := ∅ }).thrown <;>
    cases hl : (setTargetsLoop env (fileEntries env lines) { kf with targets := ∅ }).thrown <;>
    simp [hf, hl] at h2 ⊢
  · rw [h1]
    simp
  · exact h1

/-- C9 (defect of the file overload): on a file without any non-blank line (here
the file without lines) the file overload returns normally, leaves the target set
empty and hands the empty set to the device, whereas `setTargets` on the list of
its trimmed non-blank lines, the empty list, throws and leaves the object as it
was. -/
theorem file_load_accepts_empty_input (env : Env W H) (kf : KeyFinder W H) :
    fileEntries env [] = [] ∧
    (setTargetsFile env (some []) kf).thrown = none ∧
    (setTargetsFile env (some []) kf).kf.targets = ∅ ∧
    (setTargetsFile env (some []) kf).kf.trace = kf.trace ++ [Event.setTargets ∅] ∧
    (setTargets env (fileEntries env []) kf).thrown
      = some (KeySearchException.withMsg "Requires at least 1 target") ∧
    (setTargets env (fileEntries env []) kf).kf = kf := by
  simp [fileEntries, setTargetsFile, setTargetsFileLoop, setTargets]

/-! ### `stop()` -/

theorem stopIf_frame (b : Bool) (x : RunState W H) :
    (stopIf b x).kf.running = (x.kf.running && !b) ∧ (stopIf b x).kf.trace = x.kf.trace ∧
    (stopIf b x).kf.statusCallback = x.kf.statusCallback ∧
    (stopIf b x).kf.resultCallback = x.kf.resultCallback := by
  cases b <;> simp [stopIf, stop]

theorem updateStatus_isSome (env : Env W H) (s : RunState W H)
    (hs : s.kf.statusCallback.isSome = true) : ∃ s2, updateStatus env s = some s2 := by
  unfold updateStatus
  simp only
  split
  · split
    · rename_i hnone
      rw [hnone] at hs
      simp at hs
    · exact ⟨_, rfl⟩
  · exact ⟨_, rfl⟩

theorem collectResults_isSome (env : Env W H) (s : RunState W H)
    (hr : s.kf.resultCallback.isSome = true) : ∃ s3, collectResults env s = some s3 := by
  unfold collectResults
  simp only
  split
  · have := reportResults_isSome env (env.getResults s.kf.world).1.2
      { s.kf with world := (env.getResults s.kf.world).2,
                  trace := s.kf.trace ++ [Event.getResults (env.getResults s.kf.world).1.1
                    (env.getResults s.kf.world).1.2] } (by simpa using hr)
    split
    · rename_i hnone
      rw [hnone] at this
      simp at this
    · exact ⟨_, rfl⟩
  · exact ⟨_, rfl⟩

theorem iterationWithStops_noStops (env : Env W H) (s : RunState W H) :
    iterationWithStops env noStops s = iteration env s := by
  simp only [iterationWithStops, noStops, stopIf, iteration, processStep, Bool.false_eq_true,
    if_false]
  cases updateStatus env (stepDevice env s) with
  | none => rfl
  | some s2 => cases collectResults env s2 <;> rfl

theorem iterationWithStops_isSome (env : Env W H) (m : Nat → Bool) (s : RunState W H)
    (hs : s.kf.statusCallback.isSome = true) (hr : s.kf.resultCallback.isSome = true) :
    ∃ s1, iterationWithStops env m s = some s1 := by
  have hs1 : (stopIf (m 1) (stepDevice env (stopIf (m 0) s))).kf.statusCallback.isSome
      = true := by
    rw [(stopIf_frame _ _).2.2.1]
    simp only [stepDevice]
    rw [(stopIf_frame _ _).2.2.1]
    exact hs
  have hr1 : (stopIf (m 1) (stepDevice env (stopIf (m 0) s))).kf.resultCallback
      = s.kf.resultCallback := by
    rw [(stopIf_frame _ _).2.2.2]
    simp only [stepDevice]
    rw [(stopIf_frame _ _).2.2.2]
  obtain ⟨s2, h2⟩ := updateStatus_isSome env _ hs1
  obtain ⟨e2, p2⟩ := updateStatus_progress env _ _ h2
  have hr2 : (stopIf (m 2) s2).kf.resultCallback.isSome = true := by
    rw [(stopIf_frame _ _).2.2.2, p2.setup.2.2.2.2.2.1, hr1]
    exact hr
  obtain ⟨s3, h3⟩ := collectResults_isSome env _ hr2
  simp only [iterationWithStops, h2, h3]
  exact ⟨_, rfl⟩

theorem iterationWithStops_running (env : Env W H) (m : Nat → Bool) (s s1 : RunState W H)
    (hit : iterationWithStops env m s = some s1) (hrun : s1.kf.running = true) :
    (∀ i, i < 6 → m i = false) ∧ (newEvents s.kf s1.kf).any Event.stopCalled = false ∧
    s.kf.running = true := by
  unfold iterationWithStops at hit
  split at hit
  · exact absurd hit (by simp)
  · rename_i s2 h2
    split at hit
    · exact absurd hit (by simp)
    · rename_i s3 h3
      simp only [Option.some.injEq] at hit
      subst hit
      obtain ⟨e2, p2⟩ := updateStatus_progress env _ _ h2
      obtain ⟨e3, p3⟩ := collectResults_progress env _ _ h3
      obtain ⟨f5, t5, _⟩ := stopIf_frame (m 5)
        (checkRange env (stopIf (m 4) (checkTargets (stopIf (m 3) s3))))
      obtain ⟨_, _, r3, tl, r4, _, _, _, r8⟩ :=
        checkRange_frame env (stopIf (m 4) (checkTargets (stopIf (m 3) s3)))
      obtain ⟨f4, t4, _⟩ := stopIf_frame (m 4) (checkTargets (stopIf (m 3) s3))
      obtain ⟨c1, _, _, _, _, c6⟩ := checkTargets_frame (stopIf (m 3) s3)
      obtain ⟨f3, t3, _⟩ := stopIf_frame (m 3) s3
      obtain ⟨f2, t2, _⟩ := stopIf_frame (m 2) s2
      obtain ⟨f1, t1, _⟩ := stopIf_frame (m 1) (stepDevice env (stopIf (m 0) s))
      obtain ⟨f0, t0, _⟩ := stopIf_frame (m 0) s
      have q3 := p3.running
      have q2 := p2.running
      have q1 : (stepDevice env (stopIf (m 0) s)).kf.running = (stopIf (m 0) s).kf.running := by
        simp [stepDevice]
      have w1 : (stepDevice env (stopIf (m 0) s)).kf.trace
          = (stopIf (m 0) s).kf.trace ++ [Event.doStep] := by
        simp [stepDevice]
      rw [f5] at hrun
      have g5 : (checkRange env (stopIf (m 4) (checkTargets (stopIf (m 3) s3)))).kf.running
          = true ∧ m 5 = false := by
        revert hrun
        cases (checkRange env (stopIf (m 4) (checkTargets (stopIf (m 3) s3)))).kf.running <;>
          cases m 5 <;> simp
      have g4 := r3 g5.1
      rw [f4, c6, f3, q3, f2, q2, f1, q1, f0] at g4
      have hall : s.kf.running = true ∧ m 0 = false ∧ m 1 = false ∧
          e2.any Event.stopCalled = false ∧ m 2 = false ∧ e3.any Event.stopCalled = false ∧
          m 3 = false ∧ m 4 = false := by
        revert g4
        cases s.kf.running <;> cases m 0 <;> cases m 1 <;> cases e2.any Event.stopCalled <;>
          cases m 2 <;> cases e3.any Event.stopCalled <;> cases m 3 <;> cases m 4 <;> simp
      obtain ⟨a0, a1, a2, a3, a4, a5, a6, a7⟩ := hall
      refine ⟨?_, ?_, a0⟩
      · intro i hi
        interval_cases i
        · exact a1
        · exact a2
        · exact a4
        · exact a6
        · exact a7
        · exact g5.2
      · have htr : (stopIf (m 5) (checkRange env (stopIf (m 4)
            (checkTargets (stopIf (m 3) s3))))).kf.trace
            = s.kf.trace ++ ([Event.doStep] ++ e2 ++ e3 ++ tl) := by
          rw [t5, r4, t4, c1, t3, p3.trace, t2, p2.trace, t1, w1, t0]
          simp
        rw [newEvents_append _ _ _ htr]
        simp [List.any_append, a3, a5, r8, Event.stopCalled]

/-- C10: a pass of the loop body during which `stop()` is called, from outside
at any point of the pass or from inside a status or result callback, ends with
the running flag cleared, whatever the targets, the cursor and the flags (no
statement of the pass sets the flag back); the loop then makes no further pass,
so `run()` returns without another `doStep`.  With both callbacks set the pass
does reach its end. -/
theorem stop_ends_run_after_pass (env : Env W H) (m : Nat → Bool) (s : RunState W H) :
    (s.kf.statusCallback.isSome = true → s.kf.resultCallback.isSome = true →
      ∃ s1, iterationWithStops env m s = some s1) ∧
    (∀ s1, iterationWithStops env m s = some s1 →
      ((∃ i, i < 6 ∧ m i = true) ∨ (newEvents s.kf s1.kf).any Event.stopCalled = true) →
      s1.kf.running = false ∧ ∀ fuel, runLoop env fuel s1 = RunResult.returned s1) ∧
    iterationWithStops env noStops s = iteration env s := by
  refine ⟨iterationWithStops_isSome env m s, ?_, iterationWithStops_noStops env s⟩
  intro s1 hit hstop
  have hfalse : s1.kf.running = false := by
    cases hrun : s1.kf.running
    · rfl
    · obtain ⟨h1, h2, _⟩ := iterationWithStops_running env m s s1 hit hrun
      rcases hstop with ⟨i, hi, hm⟩ | hcb
      · rw [h1 i hi] at hm
        exact absurd hm (by simp)
      · rw [h2] at hcb
        exact absurd hcb (by simp)
  exact ⟨hfalse, fun fuel => runLoop_stopped env fuel s1 hfalse⟩

theorem stop_ends_run_after_pass_witness :
    iterationWithStops demoEnv noStops stoppingStart = some (demoPass stoppingStart) ∧
    (newEvents stoppingStart.kf (demoPass stoppingStart).kf).any Event.stopCalled = true ∧
    (demoPass stoppingStart).kf.targets ≠ ∅ ∧
    (demoPass stoppingStart).kf.running = false ∧
    (∃ i, i < 6 ∧ stopAfterStep i = true) ∧
    (iterationWithStops demoEnv stopAfterStep (nearEndStart true true)).isSome = true ∧
    (iterationWithStops demoEnv stopAfterStep (nearEndStart true true)).map
      (fun s1 => s1.kf.running) = some false :=
  ⟨rfl, by decide, by decide,
    ((stop_ends_run_after_pass demoEnv noStops stoppingStart).2.1 (demoPass stoppingStart) rfl
      (Or.inr (by decide))).1,
    ⟨1, by decide, by decide⟩, by decide, by decide⟩

/-! ### Entering `run()` -/

/-- C11 (defect of the constructor): on a freshly constructed finder on which no
callback was set both callbacks are `NULL`, not the do-nothing defaults of lines
11-19; a `run()` that receives a device result in its first pass, or that reaches
a status emission in its second pass, calls through the `NULL` pointer and
crashes. -/
theorem run_without_callbacks_crashes :
    (freshFinder []).statusCallback.isNone = true ∧
    (freshFinder []).resultCallback.isNone = true ∧
    (freshFinder []).targets = {7} ∧
    (run demoEnv 5 (freshFinder [(1, [demoRecord 42 7])])).isCrashed = true ∧
    (run demoEnv 5 (freshFinder [])).isCrashed = true := by
  decide

theorem reportResults_frame (env : Env W H) (rs : List (KeySearchResult H)) :
    ∀ (kf kf1 : KeyFinder W H), reportResults env rs kf = some kf1 →
      kf1.total = kf.total ∧ kf1.iterCount = kf.iterCount ∧
      ∃ evs, kf1.trace = kf.trace ++ evs ∧
        ∀ e ∈ evs, ∃ info r b, e = Event.resultCallback info r b := by
  induction rs with
  | nil =>
    intro kf kf1 h
    simp only [reportResults, Option.some.injEq] at h
    subst h
    exact ⟨rfl, rfl, [], by simp, by simp⟩
  | cons r rest ih =>
    intro kf kf1 h
    unfold reportResults at h
    simp only at h
    split at h
    · exact absurd h (by simp)
    · rename_i cb hcb
      obtain ⟨h1, h2, evs, h3, h4⟩ := ih _ _ h
      refine ⟨h1, h2, Event.resultCallback (resultInfo env r) r
        (cb (resultInfo env r) kf.world).1 :: evs, by rw [h3]; simp, ?_⟩
      intro e he
      rcases List.mem_cons.mp he with h5 | h5
      · exact ⟨_, _, _, h5⟩
      · exact h4 e h5

theorem iteration_getResultsCount (env : Env W H) (s s1 : RunState W H)
    (h : iteration env s = some s1) :
    getResultsCount s1.kf.trace = getResultsCount s.kf.trace + 1 := by
  obtain ⟨s3, h3, rfl⟩ := iteration_eq env s s1 h
  have hr : getResultsCount (checkRange env (checkTargets s3)).kf.trace
      = getResultsCount s3.kf.trace := by
    have hc : (checkTargets s3).kf.trace = s3.kf.trace := (checkTargets_frame s3).1
    unfold checkRange
    split
    · split
      · simp [reSetupEverything, getResultsCount, Event.isGetResults, hc]
      · simp [hc]
    · rw [hc]
  rw [hr]
  unfold processStep at h3
  split at h3
  · exact absurd h3 (by simp)
  · rename_i s2 h2
    have hs2 : getResultsCount s2.kf.trace = getResultsCount s.kf.trace := by
      unfold updateStatus at h2
      simp only at h2
      split at h2
      · split at h2
        · exact absurd h2 (by simp)
        · simp only [Option.some.injEq] at h2
          subst h2
          simp [getResultsCount, stepDevice, Event.isGetResults]
      · simp only [Option.some.injEq] at h2
        subst h2
        simp [getResultsCount, stepDevice, Event.isGetResults]
    rw [← hs2]
    unfold collectResults at h3
    simp only at h3
    split at h3
    · split at h3
      · exact absurd h3 (by simp)
      · rename_i kf1 hrep
        simp only [Option.some.injEq] at h3
        subst h3
        obtain ⟨_, _, evs, h1, hshape⟩ := reportResults_frame env _ _ _ hrep
        have hz : evs.countP Event.isGetResults = 0 := by
          rw [List.countP_eq_zero]
          intro e he
          obtain ⟨info, r, b, rfl⟩ := hshape e he
          simp [Event.isGetResults]
        rw [(removeFound_frame _ kf1).1, h1]
        simp [getResultsCount, Event.isGetResults, hz]
    · simp only [Option.some.injEq] at h3
      subst h3
      simp [getResultsCount, Event.isGetResults]

theorem afterPasses_getResultsCount (env : Env W H) :
    ∀ (j : Nat) (s s2 : RunState W H), afterPasses env j s = some s2 →
      getResultsCount s2.kf.trace = getResultsCount s.kf.trace + j := by
  intro j
  induction j with
  | zero =>
    intro s s2 h
    simp only [afterPasses, Option.some.injEq] at h
    subst h
    rfl
  | succ n ih =>
    intro s s2 h
    unfold afterPasses at h
    split at h
    · split at h
      · exact absurd h (by simp)
      · rename_i s1 h1
        rw [ih s1 s2 h, iteration_getResultsCount env s s1 h1]
        omega
    · exact absurd h (by simp)

/-- C18: `run()` sets the running flag on entry, so whatever the prior state
(`stop()` already called, no target, cursor outside the range) a `run()` that
returns has made at least one `doStep` and one `getResults`; a `stop()` issued
before `run()` changes nothing. -/
theorem run_makes_first_pass (env : Env W H) (fuel : Nat) (kf : KeyFinder W H)
    (out : RunState W H) (h : run env fuel kf = RunResult.returned out) :
    (runEntry env kf).kf.running = true ∧
    doStepCount kf.trace < doStepCount out.kf.trace ∧
    getResultsCount kf.trace < getResultsCount out.kf.trace ∧
    run env fuel (stop kf) = run env fuel kf := by
  have hentry : (runEntry env kf).kf.running = true := rfl
  obtain ⟨hstopped, j, hj⟩ := runLoop_returned env fuel _ out h
  have hge := afterPasses_running_ge env j _ out hentry hstopped hj
  obtain ⟨evs, ht, _, hc⟩ := afterPasses_trace env j _ out hj
  have hg := afterPasses_getResultsCount env j _ out hj
  refine ⟨hentry, ?_, ?_, rfl⟩
  · rw [ht, doStepCount_append, hc]
    show doStepCount kf.trace < doStepCount kf.trace + j
    omega
  · rw [hg]
    show getResultsCount kf.trace < getResultsCount kf.trace + j
    omega

theorem run_makes_first_pass_witness :
    stoppedFinder.running = false ∧ stoppedFinder.targets = ∅ ∧
    run demoEnv 3 stoppedFinder = RunResult.returned (demoPass (runEntry demoEnv stoppedFinder)) ∧
    doStepCount stoppedFinder.trace
      < doStepCount (demoPass (runEntry demoEnv stoppedFinder)).kf.trace ∧
    getResultsCount stoppedFinder.trace
      < getResultsCount (demoPass (runEntry demoEnv stoppedFinder)).kf.trace :=
  ⟨by decide, by decide, rfl,
    (run_makes_first_pass demoEnv 3 stoppedFinder
      (demoPass (runEntry demoEnv stoppedFinder)) rfl).2.1,
    (run_makes_first_pass demoEnv 3 stoppedFinder
      (demoPass (runEntry demoEnv stoppedFinder)) rfl).2.2.1⟩

/-! ### The end of a pass that found the last target -/

theorem checkRange_trace (env : Env W H) (s : RunState W H) :
    ((rangeExhausted env s.kf && (s.kf.continueAfterEnd && s.kf.randomStride)) = false →
      (checkRange env s).kf.trace = s.kf.trace ∧ SameStride s.kf (checkRange env s).kf) ∧
    ((rangeExhausted env s.kf && (s.kf.continueAfterEnd && s.kf.randomStride)) = true →
      (checkRange env s).kf = reSetupEverything env s.kf) := by
  unfold checkRange
  constructor
  · intro h
    split
    · rename_i hex
      rw [hex, Bool.true_and] at h
      simp [h, SameStride]
    · simp [SameStride]
  · intro h
    rw [Bool.and_eq_true] at h
    simp [h.1, h.2]

/-- C14 (as stated, refuted): the last target is found in the pass in which the
cursor leaves the range, with both flags set; the target set is empty after the
results, and still the restride counter goes from 0 to 1, stride and history
change, and the device receives an `updateStride`. -/
theorem empty_target_set_still_restrides :
    (processStep demoEnv lastTargetAtEndStart).isSome = true ∧
    (demoStep lastTargetAtEndStart).kf.targets = ∅ ∧
    (iteration demoEnv lastTargetAtEndStart).isSome = true ∧
    lastTargetAtEndStart.kf.rStrideCount = 0 ∧
    (demoPass lastTargetAtEndStart).kf.rStrideCount = 1 ∧
    lastTargetAtEndStart.kf.stride = 5 ∧
    (demoPass lastTargetAtEndStart).kf.stride = 6 ∧
    lastTargetAtEndStart.kf.rStrideHistory = [5] ∧
    (demoPass lastTargetAtEndStart).kf.rStrideHistory = [6, 5] ∧
    (newEvents lastTargetAtEndStart.kf (demoPass lastTargetAtEndStart).kf).any
      Event.isUpdateStride = true := by
  decide

/-- C14 (amended): in a pass in which the target set is empty after the results
the range check is still made.  When the cursor is inside the range, or
`continueAfterEnd` and `randomStride` are not both set, no restride happens:
stride, counter and history are unchanged and the device receives no
`updateStride`.  When the cursor is outside the range and both flags are set,
`reSetupEverything` runs once although no target is left.  In both cases the
pass ends with the running flag cleared. -/
theorem empty_target_set_range_check (env : Env W H) (s s3 : RunState W H)
    (hp : processStep env s = some s3) (hempty : s3.kf.targets = ∅) :
    ∃ s1, iteration env s = some s1 ∧ s1.kf.running = false ∧
      ((rangeExhausted env s3.kf && (s.kf.continueAfterEnd && s.kf.randomStride)) = false →
        SameStride s.kf s1.kf ∧
        (newEvents s.kf s1.kf).filter Event.isUpdateStride = []) ∧
      ((rangeExhausted env s3.kf && (s.kf.continueAfterEnd && s.kf.randomStride)) = true →
        s1.kf = reSetupEverything env (stop s3.kf) ∧
        s1.kf.rStrideCount = (s.kf.rStrideCount + 1) % 2 ^ env.rStrideCountBits ∧
        (newEvents s.kf s1.kf).filter Event.isUpdateStride
          = [Event.updateStride s1.kf.stride]) := by
  have hit : iteration env s = some (checkRange env (checkTargets s3)) := by
    simp [iteration, hp]
  obtain ⟨evs, p⟩ := processStep_progress env s s3 hp
  obtain ⟨b1, b2, b3, b4, b5, b6, b7, b8, b9⟩ := p.setup
  have hct : (checkTargets s3).kf = stop s3.kf := by
    unfold checkTargets
    rw [if_pos (by rw [hempty]; rfl)]
    rfl
  have hcond : (rangeExhausted env (checkTargets s3).kf &&
      ((checkTargets s3).kf.continueAfterEnd && (checkTargets s3).kf.randomStride))
      = (rangeExhausted env s3.kf && (s.kf.continueAfterEnd && s.kf.randomStride)) := by
    rw [hct, ← b7, ← b8]
    rfl
  have hnoU : evs.filter Event.isUpdateStride = [] := by
    rw [List.filter_eq_nil_iff]
    intro e he
    simp [(p.others e he).1]
  obtain ⟨c1, c2⟩ := checkRange_trace env (checkTargets s3)
  rw [hcond] at c1 c2
  have hstop : (checkRange env (checkTargets s3)).kf.running = false := by
    cases hr : (checkRange env (checkTargets s3)).kf.running
    · rfl
    · have := (checkRange_frame env (checkTargets s3)).2.2.1 hr
      rw [hct] at this
      simp [stop] at this
  refine ⟨_, hit, hstop, ?_, ?_⟩
  · intro hc
    obtain ⟨t1, t2⟩ := c1 hc
    refine ⟨sameStride_trans p.stride (sameStride_trans ?_ t2), ?_⟩
    · rw [hct]
      simp [SameStride, stop]
    · have htr : (checkRange env (checkTargets s3)).kf.trace = s.kf.trace ++ evs := by
        rw [t1, hct]
        simpa [stop] using p.trace
      rw [newEvents_append _ _ _ htr, hnoU]
  · intro hc
    have hkf := c2 hc
    rw [hct] at hkf
    obtain ⟨d1, d2, d3⟩ := p.stride
    refine ⟨hkf, ?_, ?_⟩
    · rw [hkf]
      simp [reSetupEverything, stop, d2]
    · have htr : (checkRange env (checkTargets s3)).kf.trace
          = s.kf.trace ++ (evs ++ [Event.updateStride
            (checkRange env (checkTargets s3)).kf.stride]) := by
        rw [hkf]
        simp [reSetupEverything, stop, p.trace]
      rw [newEvents_append _ _ _ htr, List.filter_append, hnoU]
      simp [Event.isUpdateStride]

theorem empty_target_set_range_check_witness :
    (demoStep lastTargetStart).kf.targets = ∅ ∧
    ∃ s1, iteration demoEnv lastTargetStart = some s1 ∧ s1.kf.running = false ∧
      ((rangeExhausted demoEnv (demoStep lastTargetStart).kf &&
          (lastTargetStart.kf.continueAfterEnd && lastTargetStart.kf.randomStride)) = false →
        SameStride lastTargetStart.kf s1.kf ∧
        (newEvents lastTargetStart.kf s1.kf).filter Event.isUpdateStride = []) ∧
      ((rangeExhausted demoEnv (demoStep lastTargetStart).kf &&
          (lastTargetStart.kf.continueAfterEnd && lastTargetStart.kf.randomStride)) = true →
        s1.kf = reSetupEverything demoEnv (stop (demoStep lastTargetStart).kf) ∧
        s1.kf.rStrideCount
          = (lastTargetStart.kf.rStrideCount + 1) % 2 ^ demoEnv.rStrideCountBits ∧
        (newEvents lastTargetStart.kf s1.kf).filter Event.isUpdateStride
          = [Event.updateStride s1.kf.stride]) :=
  ⟨by decide, empty_target_set_range_check demoEnv lastTargetStart (demoStep lastTargetStart)
    rfl (by decide)⟩

theorem bit_test (x i : Nat) : (1 &&& (x >>> i) = 0) ↔ (x / 2 ^ i) % 2 = 0 := by
  rw [Nat.one_and_eq_mod_two, Nat.shiftRight_eq_div_pow]

theorem u64_small (c : Nat) (h : c ≤ 64) : u64 (c + 1) = c + 1 := by
  unfold u64
  apply Nat.mod_eq_of_lt
  omega

theorem LZCLoop_spec (x : Nat) (hx : 0 < x) :
    ∀ (j c : Nat), j + c = 64 → x < 2 ^ j →
      LZCLoop x j c ≤ 63 ∧ 2 ^ (63 - LZCLoop x j c) ≤ x ∧ x < 2 ^ (64 - LZCLoop x j c) := by
  intro j
  induction j with
  | zero =>
    intro c _ hlt
    simp at hlt
    omega
  | succ i ih =>
    intro c hc hlt
    unfold LZCLoop
    by_cases hb : (x / 2 ^ i) % 2 = 0
    · rw [if_pos ((bit_test x i).mpr hb), u64_small c (by omega)]
      apply ih (c + 1) (by omega)
      have h2 : x / 2 ^ i < 2 := by
        rw [Nat.div_lt_iff_lt_mul (by positivity)]
        rw [pow_succ] at hlt
        linarith
      have h0 : x / 2 ^ i = 0 := by
        generalize x / 2 ^ i = y at hb h2
        omega
      exact (Nat.div_eq_zero_iff (by positivity)).mp h0
    · rw [if_neg (fun h => hb ((bit_test x i).mp h))]
      have hci : c = 63 - i := by omega
      have h1 : 1 ≤ x / 2 ^ i := by
        generalize x / 2 ^ i = y at hb
        omega
      have hge : 2 ^ i ≤ x := by
        have := (Nat.le_div_iff_mul_le (by positivity : 0 < 2 ^ i)).mp h1
        simpa using this
      subst hci
      refine ⟨by omega, ?_, ?_⟩
      · have : 63 - (63 - i) = i := by omega
        rw [this]; exact hge
      · have : 64 - (63 - i) = i + 1 := by omega
        rw [this]; exact hlt

theorem TZCLoop_spec (x : Nat) (hx : 0 < x) (hlt : x < 2 ^ 64) :
    ∀ (n i : Nat), n + i = 64 → 2 ^ i ∣ x →
      2 ^ TZCLoop x n i i ∣ x ∧ ¬ 2 ^ (TZCLoop x n i i + 1) ∣ x := by
  intro n
  induction n with
  | zero =>
    intro i hi hdvd
    have : i = 64 := by omega
    subst this
    have := Nat.le_of_dvd hx hdvd
    omega
  | succ n ih =>
    intro i hi hdvd
    unfold TZCLoop
    obtain ⟨m, hm⟩ := hdvd
    have hdiv : x / 2 ^ i = m := by
      rw [hm]; exact Nat.mul_div_cancel_left m (by positivity)
    by_cases hb : (x / 2 ^ i) % 2 = 0
    · rw [if_pos ((bit_test x i).mpr hb), u64_small i (by omega)]
      apply ih (i + 1) (by omega)
      rw [hdiv] at hb
      obtain ⟨q, hq⟩ := Nat.dvd_of_mod_eq_zero hb
      exact ⟨q, by rw [hm, hq, pow_succ]; ring⟩
    · rw [if_neg (fun h => hb ((bit_test x i).mp h))]
      refine ⟨⟨m, hm⟩, ?_⟩
      rintro ⟨q, hq⟩
      apply hb
      rw [hdiv]
      have hmq : m = 2 * q := by
        have h2 : 2 ^ i * m = 2 ^ i * (2 * q) := by rw [← hm, hq, pow_succ]; ring
        exact Nat.eq_of_mul_eq_mul_left (by positivity) h2
      rw [hmq]
      exact Nat.mul_mod_right 2 q

/-- C20: `LZC 0 = TZC 0 = 64`; for a non-zero 64-bit `x`, `LZC x` is the number
of zero bits above the highest set bit, `TZC x` is the largest `k` such that
`2 ^ k` divides `x`, and `LZC x + TZC x ≤ 63` with equality exactly when `x` is a
power of two. -/
theorem LZC_TZC_spec (x : Nat) (hx : x < 2 ^ 64) :
    LZC 0 = 64 ∧ TZC 0 = 64 ∧
    (x ≠ 0 →
      LZC x ≤ 63 ∧ 2 ^ (63 - LZC x) ≤ x ∧ x < 2 ^ (64 - LZC x) ∧
      2 ^ TZC x ∣ x ∧ (∀ k, 2 ^ k ∣ x → k ≤ TZC x) ∧
      LZC x + TZC x ≤ 63 ∧ (LZC x + TZC x = 63 ↔ ∃ k, x = 2 ^ k)) := by
  refine ⟨by decide, by decide, ?_⟩
  intro hne
  have hpos : 0 < x := Nat.pos_of_ne_zero hne
  have hL : LZC x = LZCLoop x 64 0 := by simp [LZC, hne]
  have hT : TZC x = TZCLoop x 64 0 0 := by simp [TZC, hne]
  obtain ⟨l1, l2, l3⟩ := LZCLoop_spec x hpos 64 0 rfl hx
  obtain ⟨t1, t2⟩ := TZCLoop_spec x hpos hx 64 0 rfl (by simp)
  rw [← hL] at l1 l2 l3
  rw [← hT] at t1 t2
  have hmax : ∀ k, 2 ^ k ∣ x → k ≤ TZC x := by
    intro k hk
    by_contra hgt
    exact t2 (dvd_trans (pow_dvd_pow 2 (by omega)) hk)
  have hle : 2 ^ TZC x ≤ x := Nat.le_of_dvd hpos t1
  have hlt : TZC x < 64 - LZC x := by
    have : 2 ^ TZC x < 2 ^ (64 - LZC x) := lt_of_le_of_lt hle l3
    exact (Nat.pow_lt_pow_iff_right Nat.one_lt_two).mp this
  refine ⟨l1, l2, l3, t1, hmax, by omega, ?_⟩
  constructor
  · intro heq
    have ht : TZC x = 63 - LZC x := by omega
    obtain ⟨m, hm⟩ := t1
    refine ⟨TZC x, ?_⟩
    have h64 : 64 - LZC x = TZC x + 1 := by omega
    rw [h64, pow_succ] at l3
    have hm2 : m < 2 := by
      by_contra hge
      have h2m : 2 ≤ m := by omega
      have hbig : 2 ^ TZC x * 2 ≤ 2 ^ TZC x * m := Nat.mul_le_mul_left _ h2m
      rw [← hm] at hbig
      exact absurd (lt_of_lt_of_le l3 hbig) (lt_irrefl _)
    have hm1 : m = 1 := by
      rcases Nat.eq_zero_or_pos m with h0 | h0
      · rw [h0, mul_zero] at hm
        omega
      · omega
    rw [hm1, mul_one] at hm
    exact hm
  · rintro ⟨k, hk⟩
    have hk1 : k ≤ TZC x := hmax k ⟨1, by rw [hk, mul_one]⟩
    have hk2 : TZC x ≤ k := by
      have t3 : 2 ^ TZC x ∣ 2 ^ k := by
        rw [← hk]
        exact t1
      exact (Nat.pow_dvd_pow_iff_le_right Nat.one_lt_two).mp t3
    have hk3 : 63 - LZC x ≤ k := by
      have l4 : 2 ^ (63 - LZC x) ≤ 2 ^ k := by
        rw [← hk]
        exact l2
      exact (Nat.pow_le_pow_iff_right Nat.one_lt_two).mp l4
    omega

theorem LZC_TZC_spec_witness :
    (12 : Nat) < 2 ^ 64 ∧ LZC 12 = 60 ∧ TZC 12 = 2 ∧ LZC 8 + TZC 8 = 63 ∧
    LZC 0 = 64 ∧ TZC 0 = 64 ∧
    ((12 : Nat) ≠ 0 →
      LZC 12 ≤ 63 ∧ 2 ^ (63 - LZC 12) ≤ 12 ∧ 12 < 2 ^ (64 - LZC 12) ∧
      2 ^ TZC 12 ∣ 12 ∧ (∀ k, 2 ^ k ∣ 12 → k ≤ TZC 12) ∧
      LZC 12 + TZC 12 ≤ 63 ∧ (LZC 12 + TZC 12 = 63 ↔ ∃ k, 12 = 2 ^ k)) :=
  ⟨by decide, by decide, by decide, by decide, LZC_TZC_spec 12 (by decide)⟩

/-! ### Status snapshots -/

theorem quiet_events (evs : List (Event H)) (h : ∀ e ∈ evs, e.isQuiet = true) :
    statusTotals evs = [] ∧ doStepCount evs = 0 ∧ ∀ d, statusTotalsAt d evs = [] := by
  induction evs with
  | nil => simp [statusTotals, doStepCount, statusTotalsAt]
  | cons e rest ih =>
    have he : e.isQuiet = true := h e (List.mem_cons_self e rest)
    obtain ⟨h1, h2, h3⟩ := ih (fun x hx => h x (List.mem_cons_of_mem e hx))
    simp only [statusTotals] at h1 ⊢
    simp only [doStepCount] at h2 ⊢
    cases e <;>
      simp_all [Event.isQuiet, Event.statusTotal, Event.isDoStep, statusTotalsAt]

theorem statusTotalsAt_append (e1 : List (Event H)) :
    ∀ (d : Nat) (e2 : List (Event H)),
      statusTotalsAt d (e1 ++ e2)
        = statusTotalsAt d e1 ++ statusTotalsAt (d + doStepCount e1) e2 := by
  induction e1 with
  | nil => intro d e2; simp [statusTotalsAt, doStepCount]
  | cons e rest ih =>
    intro d e2
    cases e with
    | doStep =>
      have hc : doStepCount (Event.doStep :: rest) = doStepCount rest + 1 := by
        simp [doStepCount, Event.isDoStep]
      rw [List.cons_append]
      simp only [statusTotalsAt]
      have ha : d + 1 + doStepCount rest = d + (doStepCount rest + 1) := by omega
      rw [ih, hc, ha]
    | statusCallback info b =>
      have hc : doStepCount (Event.statusCallback info b :: rest) = doStepCount rest := by
        simp [doStepCount, Event.isDoStep]
      rw [List.cons_append]
      simp only [statusTotalsAt]
      rw [ih, hc, List.cons_append]
    | init a b c =>
      have hc : doStepCount (Event.init a b c :: rest) = doStepCount rest := by
        simp [doStepCount, Event.isDoStep]
      rw [List.cons_append]
      simp only [statusTotalsAt]
      rw [ih, hc]
    | getResults n rs =>
      have hc : doStepCount (Event.getResults n rs :: rest) = doStepCount rest := by
        simp [doStepCount, Event.isDoStep]
      rw [List.cons_append]
      simp only [statusTotalsAt]
      rw [ih, hc]
    | setTargets t =>
      have hc : doStepCount (Event.setTargets t :: rest) = doStepCount rest := by
        simp [doStepCount, Event.isDoStep]
      rw [List.cons_append]
      simp only [statusTotalsAt]
      rw [ih, hc]
    | updateStride st =>
      have hc : doStepCount (Event.updateStride st :: rest) = doStepCount rest := by
        simp [doStepCount, Event.isDoStep]
      rw [List.cons_append]
      simp only [statusTotalsAt]
      rw [ih, hc]
    | resultCallback info r b =>
      have hc : doStepCount (Event.resultCallback info r b :: rest) = doStepCount rest := by
        simp [doStepCount, Event.isDoStep]
      rw [List.cons_append]
      simp only [statusTotalsAt]
      rw [ih, hc]

theorem statusTotals_append (e1 e2 : List (Event H)) :
    statusTotals (e1 ++ e2) = statusTotals e1 ++ statusTotals e2 := by
  simp [statusTotals]

theorem removeFound_counters (rs : List (KeySearchResult H)) :
    ∀ (kf : KeyFinder W H),
      (removeFound rs kf).total = kf.total ∧ (removeFound rs kf).iterCount = kf.iterCount := by
  induction rs with
  | nil => intro kf; simp [removeFound]
  | cons r rest ih =>
    intro kf
    simp only [removeFound]
    obtain ⟨h1, h2⟩ := ih (removeTargetFromList r.hash kf)
    exact ⟨by rw [h1]; rfl, by rw [h2]; rfl⟩

/-- The part of a pass after the status update adds only entries that are
neither `doStep` calls nor status callbacks and leaves the counters alone. -/
theorem restOfPass_quiet (env : Env W H) (s2 s3 : RunState W H)
    (h : collectResults env s2 = some s3) :
    (checkRange env (checkTargets s3)).kf.total = s2.kf.total ∧
    (checkRange env (checkTargets s3)).kf.iterCount = s2.kf.iterCount ∧
    (checkRange env (checkTargets s3)).prevIterCount = s2.prevIterCount ∧
    (checkRange env (checkTargets s3)).pointsPerIteration = s2.pointsPerIteration ∧
    ∃ evs, (checkRange env (checkTargets s3)).kf.trace = s2.kf.trace ++ evs ∧
      ∀ e ∈ evs, e.isQuiet = true := by
  have h3 : s3.kf.total = s2.kf.total ∧ s3.kf.iterCount = s2.kf.iterCount ∧
      s3.prevIterCount = s2.prevIterCount ∧ s3.pointsPerIteration = s2.pointsPerIteration ∧
      ∃ evs, s3.kf.trace = s2.kf.trace ++ evs ∧ ∀ e ∈ evs, e.isQuiet = true := by
    unfold collectResults at h
    simp only at h
    split at h
    · split at h
      · exact absurd h (by simp)
      · rename_i kf1 hrep
        simp only [Option.some.injEq] at h
        subst h
        obtain ⟨g1, g2, evs, g3, g4⟩ := reportResults_frame env _ _ _ hrep
        obtain ⟨f1, f2⟩ := removeFound_counters (env.getResults s2.kf.world).1.2 kf1
        refine ⟨by simp only [f1, g1], by simp only [f2, g2], rfl, rfl,
          Event.getResults (env.getResults s2.kf.world).1.1 (env.getResults s2.kf.world).1.2
            :: evs, ?_, ?_⟩
        · simp only [(removeFound_frame _ kf1).1, g3]
          simp
        · intro e he
          rcases List.mem_cons.mp he with h5 | h5
          · subst h5; rfl
          · obtain ⟨info, r, b, rfl⟩ := g4 e h5
            rfl
    · simp only [Option.some.injEq] at h
      subst h
      exact ⟨rfl, rfl, rfl, rfl,
        [Event.getResults (env.getResults s2.kf.world).1.1 (env.getResults s2.kf.world).1.2],
        by simp, by
        intro e he
        simp only [List.mem_singleton] at he
        subst he
        rfl⟩
  obtain ⟨a1, a2, a3, a4, evs, a5, a6⟩ := h3
  have hc : (checkTargets s3).kf.total = s3.kf.total ∧
      (checkTargets s3).kf.iterCount = s3.kf.iterCount ∧
      (checkTargets s3).prevIterCount = s3.prevIterCount ∧
      (checkTargets s3).pointsPerIteration = s3.pointsPerIteration ∧
      (checkTargets s3).kf.trace = s3.kf.trace := by
    unfold checkTargets
    split <;> simp
  obtain ⟨c1, c2, c3, c4, c5⟩ := hc
  unfold checkRange
  split
  · split
    · refine ⟨by simp [reSetupEverything, c1, a1], by simp [reSetupEverything, c2, a2],
        by simp [c3, a3], by simp [c4, a4],
        evs ++ [Event.updateStride (reSetupEverything env (checkTargets s3).kf).stride], ?_, ?_⟩
      · simp [reSetupEverything, c5, a5]
      · intro e he
        rcases List.mem_append.mp he with h5 | h5
        · exact a6 e h5
        · simp only [List.mem_singleton] at h5
          subst h5
          rfl
    · exact ⟨by simp [c1, a1], by simp [c2, a2], by simp [c3, a3], by simp [c4, a4],
        evs, by simp [c5, a5], a6⟩
  · exact ⟨by simp [c1, a1], by simp [c2, a2], by simp [c3, a3], by simp [c4, a4],
      evs, by simp [c5, a5], a6⟩

/-- What one pass does to the counters and the snapshots: without a snapshot the
accumulator is untouched; with one, the snapshot shows the new accumulator
`(_total + count) mod 2 ^ 64` and `prevIterCount` takes the value of
`_iterCount`. -/
theorem pass_counters (env : Env W H) (s s1 : RunState W H) (hit : iteration env s = some s1) :
    s1.kf.iterCount = u64 (s.kf.iterCount + 1) ∧
    s1.pointsPerIteration = s.pointsPerIteration ∧
    ∃ evs, (∀ e ∈ evs, e.isQuiet = true) ∧
      ((takesSnapshot env s = false ∧ s1.kf.trace = s.kf.trace ++ Event.doStep :: evs ∧
          s1.kf.total = s.kf.total ∧ s1.prevIterCount = s.prevIterCount) ∨
        (takesSnapshot env s = true ∧
          (∃ b, s1.kf.trace = s.kf.trace ++
            Event.doStep :: Event.statusCallback (statusInfo env (stepDevice env s)) b :: evs) ∧
          s1.kf.total = u64 (s.kf.total + statusCount (stepDevice env s)) ∧
          s1.prevIterCount = u64 (s.kf.iterCount + 1))) := by
  obtain ⟨s3, h3, rfl⟩ := iteration_eq env s _ hit
  unfold processStep at h3
  split at h3
  · exact absurd h3 (by simp)
  · rename_i s2 h2
    obtain ⟨r1, r2, r3, r4, evs, r5, r6⟩ := restOfPass_quiet env s2 s3 h3
    unfold updateStatus at h2
    simp only at h2
    split at h2
    · rename_i hge
      split at h2
      · exact absurd h2 (by simp)
      · rename_i cb hcb
        simp only [Option.some.injEq] at h2
        subst h2
        refine ⟨by rw [r2]; rfl, by rw [r4]; rfl, evs, r6, Or.inr ⟨?_,
          ⟨(cb (statusInfo env (stepDevice env s)) (stepDevice env s).kf.world).1, ?_⟩, ?_, ?_⟩⟩
        · simpa [takesSnapshot, stepDevice] using hge
        · rw [r5]
          simp [stepDevice]
        · rw [r1]
          rfl
        · rw [r3]
          rfl
    · rename_i hlt
      simp only [Option.some.injEq] at h2
      subst h2
      refine ⟨by rw [r2]; rfl, by rw [r4]; rfl, evs, r6, Or.inl ⟨?_, ?_, ?_, ?_⟩⟩
      · simpa [takesSnapshot, stepDevice] using hlt
      · rw [r5]
        simp [stepDevice]
      · rw [r1]
        rfl
      · rw [r3]
        rfl

theorem u64_modEq (n : Nat) : Nat.ModEq 18446744073709551616 (u64 n) n :=
  Nat.mod_modEq n 18446744073709551616

theorem u64_congr {a b : Nat} (h : Nat.ModEq 18446744073709551616 a b) : u64 a = u64 b := h

theorem u64_lt (n : Nat) : u64 n < 18446744073709551616 :=
  Nat.mod_lt n (by decide)

theorem u64_succ (D : Nat) : u64 (u64 D + 1) = u64 (D + 1) :=
  u64_congr ((u64_modEq D).add_right 1)

theorem u64_mul (a q : Nat) : u64 (u64 a * q) = u64 (a * q) :=
  u64_congr ((u64_modEq a).mul_right q)

/-- The increments of the accumulator telescope: adding the count for the steps
since the last snapshot to `prev * q` gives `iter * q`, modulo `2 ^ 64`. -/
theorem u64_telescope (p a q : Nat) (hp : p < 18446744073709551616) :
    u64 (u64 (p * q) + u64 (u64 (a + 18446744073709551616 - p) * q)) = u64 (a * q) := by
  apply u64_congr
  have h1 : Nat.ModEq 18446744073709551616
      (u64 (p * q) + u64 (u64 (a + 18446744073709551616 - p) * q))
      (p * q + (a + 18446744073709551616 - p) * q) :=
    Nat.ModEq.add (u64_modEq _)
      ((u64_modEq _).trans ((u64_modEq _).mul_right q))
  have h2 : p * q + (a + 18446744073709551616 - p) * q = a * q + 18446744073709551616 * q := by
    have h3 : p + (a + 18446744073709551616 - p) = a + 18446744073709551616 := by omega
    rw [← Nat.add_mul, h3, Nat.add_mul]
  rw [h2] at h1
  refine h1.trans ?_
  have h4 : Nat.ModEq 18446744073709551616 (18446744073709551616 * q) 0 :=
    (Nat.modEq_zero_iff_dvd).mpr (Dvd.intro q rfl)
  simpa using Nat.ModEq.add_left (a * q) h4

theorem counters_invariant (env : Env W H) :
    ∀ (k : Nat) (s s2 : RunState W H) (D : Nat), afterPasses env k s = some s2 →
      s.kf.iterCount = u64 D →
      s.kf.total = u64 (s.prevIterCount * s.pointsPerIteration) →
      s.prevIterCount < 18446744073709551616 →
      ∃ evs, s2.kf.trace = s.kf.trace ++ evs ∧
        ∀ p ∈ statusTotalsAt D evs, p.2 = u64 (p.1 * s.pointsPerIteration) := by
  intro k
  induction k with
  | zero =>
    intro s s2 D h _ _ _
    simp only [afterPasses, Option.some.injEq] at h
    subst h
    exact ⟨[], by simp, by simp [statusTotalsAt]⟩
  | succ n ih =>
    intro s s2 D h hi ht hp
    unfold afterPasses at h
    split at h
    · split at h
      · exact absurd h (by simp)
      · rename_i s1 h1
        obtain ⟨c1, c2, evq, hq, hcase⟩ := pass_counters env s s1 h1
        obtain ⟨q1, q2, q3⟩ := quiet_events evq hq
        have hi1 : s1.kf.iterCount = u64 (D + 1) := by
          rw [c1, hi, u64_succ]
        have hstep : (stepDevice env s).kf.iterCount = u64 (D + 1) := by
          simp only [stepDevice]
          rw [hi, u64_succ]
        rcases hcase with ⟨_, htr, htot, hprev⟩ | ⟨_, ⟨b, htr⟩, htot, hprev⟩
        · obtain ⟨evs, e1, e2⟩ := ih s1 s2 (D + 1) h hi1
            (by rw [htot, hprev, c2]; exact ht) (by rw [hprev]; exact hp)
          refine ⟨(Event.doStep :: evq) ++ evs, by rw [e1, htr, List.append_assoc], ?_⟩
          intro p hmem
          rw [statusTotalsAt_append] at hmem
          have hd : doStepCount (Event.doStep :: evq) = 1 := by
            have : doStepCount (Event.doStep :: evq) = doStepCount evq + 1 := by
              simp [doStepCount, Event.isDoStep]
            rw [this, q2]
          simp only [statusTotalsAt, q3, List.nil_append, hd] at hmem
          rw [← c2]
          exact e2 p hmem
        · have hval : u64 (s.kf.total + statusCount (stepDevice env s))
              = u64 (u64 (D + 1) * s.pointsPerIteration) := by
            have hsc : statusCount (stepDevice env s)
                = u64 (u64 (u64 (D + 1) + 18446744073709551616 - s.prevIterCount)
                  * s.pointsPerIteration) := by
              simp only [statusCount, hstep]
              rfl
            rw [ht, hsc]
            exact u64_telescope _ _ _ hp
          obtain ⟨evs, e1, e2⟩ := ih s1 s2 (D + 1) h hi1
            (by rw [htot, hprev, c2, hi, u64_succ]; exact hval)
            (by rw [hprev]; exact u64_lt _)
          refine ⟨(Event.doStep :: Event.statusCallback (statusInfo env (stepDevice env s)) b
            :: evq) ++ evs, by rw [e1, htr, List.append_assoc], ?_⟩
          intro p hmem
          rw [statusTotalsAt_append] at hmem
          have hd : doStepCount (Event.doStep
              :: Event.statusCallback (statusInfo env (stepDevice env s)) b :: evq) = 1 := by
            have : doStepCount (Event.doStep
                :: Event.statusCallback (statusInfo env (stepDevice env s)) b :: evq)
                = doStepCount evq + 1 := by
              simp [doStepCount, Event.isDoStep]
            rw [this, q2]
          simp only [statusTotalsAt, q3, hd, List.cons_append, List.nil_append,
            List.mem_cons] at hmem
          rcases hmem with hm | hm
          · subst hm
            show u64 (s.kf.total + statusCount (stepDevice env s))
              = u64 ((D + 1) * s.pointsPerIteration)
            rw [hval, u64_mul]
          · rw [← c2]
            exact e2 p hm
    · exact absurd h (by simp)

/-- C19: in the first `run()` of an object whose `_total` and `_iterCount` are
still the zeros of the constructor, every status snapshot shows as `total` the
number of `doStep` calls made so far in the run times the `keysPerStep` read on
entry, modulo `2 ^ 64`. -/
theorem first_run_totals_count_steps (env : Env W H) (kf : KeyFinder W H) (k : Nat)
    (s2 : RunState W H) (h0 : kf.total = 0) (h1 : kf.iterCount = 0)
    (hk : afterPasses env k (runEntry env kf) = some s2) :
    ∀ p ∈ statusTotalsAt 0 (newEvents kf s2.kf),
      p.2 = u64 (p.1 * u64 (env.keysPerStep kf.world)) := by
  obtain ⟨evs, e1, e2⟩ := counters_invariant env k (runEntry env kf) s2 0 hk
    (by simp [runEntry, h1, u64]) (by simp [runEntry, h0, u64]) (by simp [runEntry])
  have hnew : newEvents kf s2.kf = evs := newEvents_append kf s2.kf evs e1
  rw [hnew]
  exact e2

theorem first_run_totals_count_steps_witness :
    idleFinder.total = 0 ∧ idleFinder.iterCount = 0 ∧
    (afterPasses demoEnv 4 (runEntry demoEnv idleFinder)).map
      (fun s => statusTotalsAt 0 (newEvents idleFinder s.kf)) = some [(2, 8), (4, 16)] ∧
    ∀ p ∈ statusTotalsAt 0 (newEvents idleFinder
        ((afterPasses demoEnv 4 (runEntry demoEnv idleFinder)).getD
          (runEntry demoEnv idleFinder)).kf),
      p.2 = u64 (p.1 * u64 (demoEnv.keysPerStep idleFinder.world)) :=
  ⟨by decide, by decide, by decide,
    first_run_totals_count_steps demoEnv idleFinder 4
      ((afterPasses demoEnv 4 (runEntry demoEnv idleFinder)).getD (runEntry demoEnv idleFinder))
      (by decide) (by decide) rfl⟩

/-- C13 (as stated, refuted): on a device that covers `2 ^ 62` keys per step the
first two status snapshots of a run show the totals `2 ^ 63` and then `0`: the
64-bit accumulator has wrapped. -/
theorem status_total_wraps :
    (afterPasses wideEnv 4 wideStart).map
      (fun s => statusTotals (newEvents wideStart.kf s.kf))
      = some [9223372036854775808, 0] := by
  decide

theorem totals_chain (env : Env W H) :
    ∀ (k : Nat) (s s2 : RunState W H), afterPasses env k s = some s2 →
      totalFitsFor env k s = true →
      List.Chain (fun a b => a ≤ b) s.kf.total (statusTotals (newEvents s.kf s2.kf)) := by
  intro k
  induction k with
  | zero =>
    intro s s2 h _
    simp only [afterPasses, Option.some.injEq] at h
    subst h
    simp [newEvents, statusTotals]
  | succ n ih =>
    intro s s2 h hfit
    unfold afterPasses at h
    split at h
    · split at h
      · exact absurd h (by simp)
      · rename_i s1 h1
        simp only [totalFitsFor, h1, Bool.and_eq_true] at hfit
        obtain ⟨hf1, hf2⟩ := hfit
        obtain ⟨_, _, evq, hq, hcase⟩ := pass_counters env s s1 h1
        obtain ⟨q1, _, _⟩ := quiet_events evq hq
        obtain ⟨evs, e1, _⟩ := afterPasses_trace env n s1 s2 h
        have hrest := ih s1 s2 h hf2
        rw [newEvents_append s1.kf s2.kf evs e1] at hrest
        rcases hcase with ⟨_, htr, htot, _⟩ | ⟨hsnap, ⟨b, htr⟩, htot, _⟩
        · have hnew : newEvents s.kf s2.kf = (Event.doStep :: evq) ++ evs :=
            newEvents_append _ _ _ (by rw [e1, htr, List.append_assoc])
          rw [hnew, statusTotals_append]
          have hq0 : statusTotals (Event.doStep :: evq) = [] := by
            simp only [statusTotals] at q1 ⊢
            simp [Event.statusTotal, q1]
          rw [hq0, List.nil_append, ← htot]
          exact hrest
        · have hnew : newEvents s.kf s2.kf
              = (Event.doStep :: Event.statusCallback (statusInfo env (stepDevice env s)) b
                :: evq) ++ evs :=
            newEvents_append _ _ _ (by rw [e1, htr, List.append_assoc])
          rw [hnew, statusTotals_append]
          have hq1 : statusTotals (Event.doStep
              :: Event.statusCallback (statusInfo env (stepDevice env s)) b :: evq)
              = [u64 (s.kf.total + statusCount (stepDevice env s))] := by
            simp only [statusTotals] at q1 ⊢
            simp [Event.statusTotal, q1, statusInfo, stepDevice]
          rw [hq1, List.singleton_append, List.chain_cons, ← htot]
          refine ⟨?_, hrest⟩
          rw [htot]
          simp only [totalFits, hsnap, Bool.not_true, Bool.false_or, decide_eq_true_eq] at hf1
          unfold u64
          rw [Nat.mod_eq_of_lt hf1]
          exact Nat.le_add_right _ _
    · exact absurd h (by simp)

theorem successiveTotals_quiet (evq : List (Event H)) (h : ∀ e ∈ evq, e.isQuiet = true) :
    ∀ (last : Option Nat) (d : Nat) (rest : List (Event H)),
      successiveTotals last d (evq ++ rest) = successiveTotals last d rest := by
  induction evq with
  | nil => intro last d rest; rfl
  | cons e tl ih =>
    intro last d rest
    have he : e.isQuiet = true := h e (List.mem_cons_self e tl)
    have ht := ih (fun x hx => h x (List.mem_cons_of_mem e hx)) last d rest
    rw [List.cons_append]
    cases e <;> simp_all [Event.isQuiet, successiveTotals]

/-- The count of a status update is the number of steps made since
`prevIterCount` was last assigned, times the keys per step, modulo `2 ^ 64`. -/
theorem u64_steps_since (p d q : Nat) (hp : p < 18446744073709551616) :
    u64 (u64 (u64 (u64 (p + d) + 1) + 18446744073709551616 - p) * q)
      = u64 (u64 (d + 1) * q) := by
  have hx : Nat.ModEq 18446744073709551616 (u64 (u64 (p + d) + 1)) (d + 1 + p) := by
    rw [u64_succ]
    have h := u64_modEq (p + d + 1)
    have e : p + d + 1 = d + 1 + p := by omega
    rw [← e]
    exact h
  have hsum : u64 (u64 (p + d) + 1) + 18446744073709551616 - p + p
      = u64 (u64 (p + d) + 1) + 18446744073709551616 := by omega
  have h1 : Nat.ModEq 18446744073709551616
      (u64 (u64 (p + d) + 1) + 18446744073709551616 - p + p) (d + 1 + p) := by
    rw [hsum]
    have h0 : Nat.ModEq 18446744073709551616
        (u64 (u64 (p + d) + 1) + 18446744073709551616) (u64 (u64 (p + d) + 1)) := by
      unfold Nat.ModEq
      exact Nat.add_mod_right _ _
    exact h0.trans hx
  have h2 : Nat.ModEq 18446744073709551616
      (u64 (u64 (p + d) + 1) + 18446744073709551616 - p) (d + 1) :=
    Nat.ModEq.add_right_cancel' p h1
  have h3 : u64 (u64 (u64 (p + d) + 1) + 18446744073709551616 - p) = u64 (d + 1) :=
    u64_congr h2
  rw [h3]

/-- Along the passes of the loop the accumulator `_total` is the `total` of the
latest snapshot and `_iterCount - prevIterCount` is the number of steps made
since, so that each snapshot shows the `total` of the one before it plus the
steps made between the two times the keys per step, modulo `2 ^ 64`. -/
theorem successive_invariant (env : Env W H) :
    ∀ (k : Nat) (s s2 : RunState W H) (last : Option Nat) (d : Nat),
      afterPasses env k s = some s2 →
      (∀ a, last = some a → s.kf.total = a ∧ a < 18446744073709551616 ∧
        s.kf.iterCount = u64 (s.prevIterCount + d) ∧
        s.prevIterCount < 18446744073709551616) →
      ∃ evs, s2.kf.trace = s.kf.trace ++ evs ∧
        ∀ p ∈ successiveTotals last d evs,
          p.2.2 = u64 (p.1 + u64 (u64 p.2.1 * s.pointsPerIteration)) ∧
          p.1 < 18446744073709551616 := by
  intro k
  induction k with
  | zero =>
    intro s s2 last d h _
    simp only [afterPasses, Option.some.injEq] at h
    subst h
    exact ⟨[], by simp, by simp [successiveTotals]⟩
  | succ n ih =>
    intro s s2 last d h hinv
    unfold afterPasses at h
    split at h
    · split at h
      · exact absurd h (by simp)
      · rename_i s1 h1
        obtain ⟨c1, c2, evq, hq, hcase⟩ := pass_counters env s s1 h1
        rcases hcase with ⟨_, htr, htot, hprev⟩ | ⟨_, ⟨b, htr⟩, htot, hprev⟩
        · obtain ⟨evs, e1, e2⟩ := ih s1 s2 last (d + 1) h (by
            intro a ha
            obtain ⟨i1, i2, i3, i4⟩ := hinv a ha
            refine ⟨by rw [htot]; exact i1, i2, ?_, by rw [hprev]; exact i4⟩
            rw [c1, hprev, i3, u64_succ]
            rfl)
          refine ⟨(Event.doStep :: evq) ++ evs, by rw [e1, htr, List.append_assoc], ?_⟩
          intro p hmem
          rw [List.cons_append] at hmem
          simp only [successiveTotals] at hmem
          rw [successiveTotals_quiet evq hq] at hmem
          rw [← c2]
          exact e2 p hmem
        · have htotal : (statusInfo env (stepDevice env s)).total
              = u64 (s.kf.total + statusCount (stepDevice env s)) := rfl
          obtain ⟨evs, e1, e2⟩ := ih s1 s2
            (some (statusInfo env (stepDevice env s)).total) 0 h (by
              intro a ha
              simp only [Option.some.injEq] at ha
              subst ha
              refine ⟨by rw [htot, htotal], by rw [htotal]; exact u64_lt _, ?_,
                by rw [hprev]; exact u64_lt _⟩
              rw [c1, hprev]
              unfold u64
              simp)
          refine ⟨(Event.doStep :: Event.statusCallback (statusInfo env (stepDevice env s)) b
            :: evq) ++ evs, by rw [e1, htr, List.append_assoc], ?_⟩
          intro p hmem
          rw [List.cons_append, List.cons_append] at hmem
          simp only [successiveTotals] at hmem
          rw [successiveTotals_quiet evq hq] at hmem
          cases last with
          | none =>
            simp only at hmem
            rw [← c2]
            exact e2 p hmem
          | some a =>
            simp only [List.mem_cons] at hmem
            rcases hmem with hm | hm
            · subst hm
              obtain ⟨i1, i2, i3, i4⟩ := hinv a rfl
              refine ⟨?_, i2⟩
              show (statusInfo env (stepDevice env s)).total
                = u64 (a + u64 (u64 (d + 1) * s.pointsPerIteration))
              rw [htotal, i1]
              have hsc : statusCount (stepDevice env s)
                  = u64 (u64 (u64 (s.kf.iterCount + 1) + 18446744073709551616
                    - s.prevIterCount) * s.pointsPerIteration) := rfl
              rw [hsc, i3, u64_steps_since _ _ _ i4]
            · rw [← c2]
              exact e2 p hm
    · exact absurd h (by simp)

/-- C13 (amended): over the passes of the loop of `run()`, for every pair of
successive status snapshots the `total` of the later one is the `total` of the
earlier one plus the count, modulo `2 ^ 64`, where the count is the number of
`doStep` calls made between the two (the value of `_iterCount - prevIterCount`)
times the `keysPerStep` read on entry, modulo `2 ^ 64`; the later `total` is at
least the earlier one exactly when that addition does not wrap past `2 ^ 64`.
In each pass that takes a snapshot, the snapshot shows
`(_total + (_iterCount - prevIterCount) * pointsPerIteration) mod 2 ^ 64` for
the members as they stand after the step of the pass, and `_total` takes that
value; a pass without a snapshot leaves `_total` alone.  Over any number of
passes in which no such addition wraps, the totals of the snapshots are
non-decreasing and at least the accumulator at the start. -/
theorem status_totals_monotone (env : Env W H) (k : Nat) (s s2 : RunState W H)
    (hk : afterPasses env k s = some s2) :
    (∀ p ∈ successiveTotals none 0 (newEvents s.kf s2.kf),
      p.2.2 = u64 (p.1 + u64 (u64 p.2.1 * s.pointsPerIteration)) ∧
      (p.1 ≤ p.2.2 ↔
        p.1 + u64 (u64 p.2.1 * s.pointsPerIteration) < 18446744073709551616)) ∧
    (∀ a a1 : RunState W H, iteration env a = some a1 →
      (takesSnapshot env a = true →
        statusTotals (newEvents a.kf a1.kf)
          = [u64 (a.kf.total + u64 (u64 (u64 (a.kf.iterCount + 1) + 18446744073709551616
              - a.prevIterCount) * a.pointsPerIteration))] ∧
        a1.kf.total
          = u64 (a.kf.total + u64 (u64 (u64 (a.kf.iterCount + 1) + 18446744073709551616
              - a.prevIterCount) * a.pointsPerIteration))) ∧
      (takesSnapshot env a = false →
        statusTotals (newEvents a.kf a1.kf) = [] ∧ a1.kf.total = a.kf.total)) ∧
    (totalFitsFor env k s = true →
      List.Chain' (fun a b => a ≤ b) (statusTotals (newEvents s.kf s2.kf)) ∧
      ∀ t ∈ statusTotals (newEvents s.kf s2.kf), s.kf.total ≤ t) := by
  refine ⟨?_, ?_, ?_⟩
  · obtain ⟨evs, e1, e2⟩ := successive_invariant env k s s2 none 0 hk
      (fun a ha => absurd ha (by simp))
    rw [newEvents_append s.kf s2.kf evs e1]
    intro p hp
    obtain ⟨h1, h2⟩ := e2 p hp
    refine ⟨h1, ?_⟩
    have hc := u64_lt (u64 p.2.1 * s.pointsPerIteration)
    rw [h1]
    unfold u64 at hc ⊢
    constructor
    · intro hle
      by_contra hwrap
      have hge : 18446744073709551616
          ≤ p.1 + u64 p.2.1 * s.pointsPerIteration % 18446744073709551616 := by
        unfold u64 at hwrap ⊢
        omega
      unfold u64 at hge hle
      rw [Nat.mod_eq_sub_mod hge, Nat.mod_eq_of_lt (by omega)] at hle
      omega
    · intro hfit
      rw [Nat.mod_eq_of_lt hfit]
      exact Nat.le_add_right _ _
  · intro a a1 hit
    obtain ⟨_, _, evq, hq, hcase⟩ := pass_counters env a a1 hit
    obtain ⟨q1, _, _⟩ := quiet_events evq hq
    simp only [statusTotals] at q1
    rcases hcase with ⟨hsnap, htr, htot, _⟩ | ⟨hsnap, ⟨b, htr⟩, htot, _⟩
    · refine ⟨fun h => absurd h (by simp [hsnap]), fun _ => ⟨?_, htot⟩⟩
      rw [newEvents_append a.kf a1.kf _ htr]
      simp [statusTotals, Event.statusTotal, q1]
    · refine ⟨fun _ => ⟨?_, htot⟩, fun h => absurd h (by simp [hsnap])⟩
      rw [newEvents_append a.kf a1.kf _ htr]
      simp only [statusTotals] 
      simp [Event.statusTotal, q1]
      rfl
  · intro hfit
    have hc := totals_chain env k s s2 hk hfit
    have hp : List.Pairwise (fun a b => a ≤ b)
        (s.kf.total :: statusTotals (newEvents s.kf s2.kf)) :=
      List.chain_iff_pairwise.mp hc
    have hc1 : List.Chain' (fun a b => a ≤ b)
        (s.kf.total :: statusTotals (newEvents s.kf s2.kf)) := hc
    exact ⟨hc1.tail, fun t ht => List.rel_of_pairwise_cons hp ht⟩

theorem status_totals_monotone_witness :
    totalFitsFor demoEnv 4 (runEntry demoEnv idleFinder) = true ∧
    (afterPasses demoEnv 4 (runEntry demoEnv idleFinder)).map
      (fun s => statusTotals (newEvents (runEntry demoEnv idleFinder).kf s.kf))
      = some [8, 16] ∧
    (afterPasses demoEnv 4 (runEntry demoEnv idleFinder)).map
      (fun s => successiveTotals none 0 (newEvents (runEntry demoEnv idleFinder).kf s.kf))
      = some [(8, 2, 16)] ∧
    (runEntry demoEnv idleFinder).pointsPerIteration = 4 ∧
    (∀ p ∈ successiveTotals none 0 (newEvents (runEntry demoEnv idleFinder).kf
        ((afterPasses demoEnv 4 (runEntry demoEnv idleFinder)).getD
          (runEntry demoEnv idleFinder)).kf),
      p.2.2 = u64 (p.1 + u64 (u64 p.2.1 * (runEntry demoEnv idleFinder).pointsPerIteration)) ∧
      (p.1 ≤ p.2.2 ↔
        p.1 + u64 (u64 p.2.1 * (runEntry demoEnv idleFinder).pointsPerIteration)
          < 18446744073709551616)) ∧
    List.Chain' (fun a b => a ≤ b)
      (statusTotals (newEvents (runEntry demoEnv idleFinder).kf
        ((afterPasses demoEnv 4 (runEntry demoEnv idleFinder)).getD
          (runEntry demoEnv idleFinder)).kf)) :=
  ⟨by decide, by decide, by decide, by decide,
    (status_totals_monotone demoEnv 4 (runEntry demoEnv idleFinder)
      ((afterPasses demoEnv 4 (runEntry demoEnv idleFinder)).getD (runEntry demoEnv idleFinder))
      rfl).1,
    ((status_totals_monotone demoEnv 4 (runEntry demoEnv idleFinder)
      ((afterPasses demoEnv 4 (runEntry demoEnv idleFinder)).getD (runEntry demoEnv idleFinder))
      rfl).2.2 (by decide)).1⟩

/-! ### Random strides -/

theorem getRandom32_spec (raw : Nat → Nat) (bits : Nat) (hist : List Nat) :
    ∀ (fuel pos v : Nat) (h1 : List Nat) (p1 : Nat),
      secp256k1.getRandom32 raw bits hist fuel pos = some (v, h1, p1) →
      v < 2 ^ bits ∧ v ∉ hist ∧ h1 = v :: hist := by
  intro fuel
  induction fuel with
  | zero =>
    intro pos v h1 p1 h
    simp [secp256k1.getRandom32] at h
  | succ n ih =>
    intro pos v h1 p1 h
    unfold secp256k1.getRandom32 at h
    split at h
    · exact ih _ _ _ _ h
    · rename_i hnot
      simp only [Option.some.injEq, Prod.mk.injEq] at h
      obtain ⟨hv, hh, _⟩ := h
      subst hv
      exact ⟨Nat.mod_lt _ (by positivity), hnot, hh.symm⟩

theorem getRandom32_returns (raw : Nat → Nat) (bits : Nat) (hist : List Nat) :
    ∀ (fuel pos : Nat), (∃ u, pos ≤ u ∧ u < pos + fuel ∧ raw u % 2 ^ bits ∉ hist) →
      ∃ r, secp256k1.getRandom32 raw bits hist fuel pos = some r := by
  intro fuel
  induction fuel with
  | zero =>
    intro pos h
    obtain ⟨u, h1, h2, _⟩ := h
    omega
  | succ n ih =>
    intro pos h
    unfold secp256k1.getRandom32
    split
    · rename_i hin
      obtain ⟨u, h1, h2, h3⟩ := h
      have hne : u ≠ pos := by
        intro he
        rw [he] at h3
        exact h3 hin
      exact ih (pos + 1) ⟨u, by omega, by omega, h3⟩
    · exact ⟨_, rfl⟩

theorem drawEnv_drawsBySpec : DrawsBySpec drawEnv := by
  intro bits hist w hfree
  obtain ⟨u, hu, hnot⟩ := hfree
  have hret : ∃ r, secp256k1.getRandom32 (fun i => i) bits hist (2 ^ bits) 0 = some r := by
    apply getRandom32_returns
    refine ⟨u, Nat.zero_le u, by omega, ?_⟩
    simp only [Nat.mod_eq_of_lt hu]
    exact hnot
  obtain ⟨r, hr⟩ := hret
  refine ⟨fun i => i, 2 ^ bits, 0, r.2.2, ?_⟩
  simp only [drawEnv, hr]

theorem free_value_exists (d : List Nat) (m : Nat) (hlen : d.length < m) :
    ∃ u, u < m ∧ u ∉ d := by
  by_contra hall
  have hsub : List.range m ⊆ d := by
    intro u hu
    by_contra hnot
    exact hall ⟨u, List.mem_range.mp hu, hnot⟩
  have hle : (List.range m).length ≤ d.length :=
    (List.subperm_of_subset (List.nodup_range m) hsub).length_le
  rw [List.length_range] at hle
  omega

theorem restrides_append (e1 e2 : List (Event H)) :
    restrides (e1 ++ e2) = restrides e1 ++ restrides e2 := by
  simp [restrides]

theorem restrides_none (evs : List (Event H)) (h : ∀ e ∈ evs, e.isUpdateStride = false) :
    restrides evs = [] := by
  induction evs with
  | nil => rfl
  | cons e rest ih =>
    have he := h e (List.mem_cons_self e rest)
    have hr := ih (fun x hx => h x (List.mem_cons_of_mem e hx))
    simp only [restrides] at hr ⊢
    cases e <;> simp_all [Event.newStride, Event.isUpdateStride]

/-- What one pass does to the strides: nothing, or one `reSetupEverything` that
draws against the history of the object and hands the value to the device. -/
theorem pass_restride (env : Env W H) (s s1 : RunState W H) (hit : iteration env s = some s1) :
    s1.kf.randomSrtrideBits = s.kf.randomSrtrideBits ∧
    ((restrides s1.kf.trace = restrides s.kf.trace ∧ SameStride s.kf s1.kf) ∨
      ∃ w, restrides s1.kf.trace = restrides s.kf.trace ++
          [(env.getRandom32 s.kf.randomSrtrideBits s.kf.rStrideHistory w).1.1] ∧
        s1.kf.stride = (env.getRandom32 s.kf.randomSrtrideBits s.kf.rStrideHistory w).1.1 ∧
        s1.kf.rStrideHistory
          = (env.getRandom32 s.kf.randomSrtrideBits s.kf.rStrideHistory w).1.2) := by
  obtain ⟨s3, h3, rfl⟩ := iteration_eq env s _ hit
  obtain ⟨evs, p⟩ := processStep_progress env s s3 h3
  obtain ⟨c1, _, _, c4, c5, _⟩ := checkTargets_frame s3
  obtain ⟨r1, r2⟩ := checkRange_trace env (checkTargets s3)
  have hev : restrides evs = [] := restrides_none evs (fun e he => (p.others e he).1)
  have h4 : SameStride s.kf (checkTargets s3).kf := sameStride_trans p.stride c5
  have hb4 : (checkTargets s3).kf.randomSrtrideBits = s.kf.randomSrtrideBits :=
    (sameSetup_trans p.setup c4).2.2.2.2.2.2.2.2
  have ht4 : restrides (checkTargets s3).kf.trace = restrides s.kf.trace := by
    rw [c1, p.trace, restrides_append, hev, List.append_nil]
  cases hc : (rangeExhausted env (checkTargets s3).kf &&
      ((checkTargets s3).kf.continueAfterEnd && (checkTargets s3).kf.randomStride))
  · obtain ⟨t1, t2⟩ := r1 hc
    refine ⟨?_, Or.inl ⟨by rw [t1, ht4], sameStride_trans h4 t2⟩⟩
    rw [← hb4]
    exact (checkRange_frame env (checkTargets s3)).2.1.2.2.2.2.2.2.2.2
  · have hkf := r2 hc
    obtain ⟨d1, d2, d3⟩ := h4
    refine ⟨by rw [hkf]; simpa [reSetupEverything] using hb4,
      Or.inr ⟨(checkTargets s3).kf.world, ?_, ?_, ?_⟩⟩
    · rw [hkf]
      simp only [reSetupEverything, restrides_append, ht4, hb4, d3]
      simp [restrides, Event.newStride]
    · rw [hkf]
      simp only [reSetupEverything, hb4, d3]
    · rw [hkf]
      simp only [reSetupEverything, hb4, d3]

theorem strides_invariant (env : Env W H) (hspec : DrawsBySpec env) (first bits : Nat) :
    ∀ (k : Nat) (s s2 : RunState W H), afterPasses env k s = some s2 →
      s.kf.randomSrtrideBits = bits →
      s.kf.rStrideHistory = (first :: restrides s.kf.trace).reverse →
      (first :: restrides s.kf.trace).Nodup →
      (∀ v ∈ first :: restrides s.kf.trace, v < 2 ^ bits) →
      (restrides s2.kf.trace).length < 2 ^ bits →
      s2.kf.rStrideHistory = (first :: restrides s2.kf.trace).reverse ∧
      (first :: restrides s2.kf.trace).Nodup ∧
      (∀ v ∈ first :: restrides s2.kf.trace, v < 2 ^ bits) := by
  intro k
  induction k with
  | zero =>
    intro s s2 h _ hh hn hr _
    simp only [afterPasses, Option.some.injEq] at h
    subst h
    exact ⟨hh, hn, hr⟩
  | succ n ih =>
    intro s s2 h hb hh hn hr hlen
    unfold afterPasses at h
    split at h
    · split at h
      · exact absurd h (by simp)
      · rename_i s1 h1
        obtain ⟨b1, hcase⟩ := pass_restride env s s1 h1
        obtain ⟨evs, e1, _⟩ := afterPasses_trace env n s1 s2 h
        have hmono : (restrides s1.kf.trace).length ≤ (restrides s2.kf.trace).length := by
          rw [e1, restrides_append, List.length_append]
          omega
        rcases hcase with ⟨t1, _, _, t4⟩ | ⟨w, t1, _, t3⟩
        · exact ih s1 s2 h (by rw [b1, hb]) (by rw [t4, t1, hh]) (by rw [t1]; exact hn)
            (by rw [t1]; exact hr) hlen
        · have hl1 : (first :: restrides s.kf.trace).length < 2 ^ bits := by
            rw [t1, List.length_append] at hmono
            simp only [List.length_cons, List.length_singleton, List.length_nil] at hmono ⊢
            omega
          have hfree : ∃ u, u < 2 ^ bits ∧ u ∉ s.kf.rStrideHistory := by
            apply free_value_exists
            rw [hh, List.length_reverse]
            exact hl1
          rw [hb] at t1 t3
          obtain ⟨raw, fuel, pos, pos1, hdraw⟩ := hspec bits s.kf.rStrideHistory w hfree
          obtain ⟨g1, g2, g3⟩ := getRandom32_spec raw bits _ fuel pos _ _ _ hdraw
          have g2a : (env.getRandom32 bits s.kf.rStrideHistory w).1.1
              ∉ first :: restrides s.kf.trace := by
            intro hin
            have hrev := List.mem_reverse.mpr hin
            rw [← hh] at hrev
            exact g2 hrev
          have hcons : first :: restrides s1.kf.trace
              = (first :: restrides s.kf.trace)
                ++ [(env.getRandom32 bits s.kf.rStrideHistory w).1.1] := by
            rw [t1, List.cons_append]
          refine ih s1 s2 h (by rw [b1, hb]) ?_ ?_ ?_ hlen
          · rw [t3, g3, hcons, List.reverse_append, hh]
            rfl
          · rw [hcons]
            apply List.Nodup.append hn (List.nodup_singleton _)
            intro x hx1 hx2
            simp only [List.mem_singleton] at hx2
            subst hx2
            exact g2a hx1
          · intro v hv
            rw [hcons] at hv
            rcases List.mem_append.mp hv with h5 | h5
            · exact hr v h5
            · simp only [List.mem_singleton] at h5
              rw [h5]
              exact g1
    · exact absurd h (by simp)

/-- C12: in random-stride mode, with `getRandom32` behaving as the draw of the
spec, the strides drawn in a run (the draw of the constructor, made against the
empty history, followed by one draw per `reSetupEverything`, each made against
the history of the object, which is never cleared and holds all earlier draws)
are pairwise different and lie below `2 ^ randomStrideBits`.  This covers every
run with at most `2 ^ randomStrideBits` draws; a further draw would find no
unused value. -/
theorem random_strides_never_repeat (env : Env W H) (hspec : DrawsBySpec env)
    (startKey endKey : Nat) (compression : Int) (device : W) (stride : Nat)
    (continueAfterEnd : Bool) (bits : Nat) (running0 : Bool) (totalTime0 : Nat)
    (kf : KeyFinder W H) (k : Nat) (s2 : RunState W H)
    (hsame : SameStride (construct env startKey endKey compression device stride true
      continueAfterEnd bits running0 totalTime0) kf)
    (hbits : kf.randomSrtrideBits = bits) (hnone : restrides kf.trace = [])
    (hk : afterPasses env k (runEntry env kf) = some s2)
    (hlen : (restrides s2.kf.trace).length < 2 ^ bits) :
    (construct env startKey endKey compression device stride true continueAfterEnd bits
      running0 totalTime0).rStrideHistory = [kf.stride] ∧
    (kf.stride :: restrides s2.kf.trace).Nodup ∧
    (∀ v ∈ kf.stride :: restrides s2.kf.trace, v < 2 ^ bits) ∧
    s2.kf.rStrideHistory = (kf.stride :: restrides s2.kf.trace).reverse := by
  obtain ⟨a1, _, a3⟩ := hsame
  have hfree : ∃ u, u < 2 ^ bits ∧ u ∉ ([] : List Nat) :=
    ⟨0, by positivity, List.not_mem_nil 0⟩
  obtain ⟨raw, fuel, pos, pos1, hdraw⟩ := hspec bits [] device hfree
  obtain ⟨g1, _, g3⟩ := getRandom32_spec raw bits _ fuel pos _ _ _ hdraw
  have hstride : kf.stride = (env.getRandom32 bits [] device).1.1 := by
    rw [a1]
    simp [construct]
  have hhist : kf.rStrideHistory = [kf.stride] := by
    rw [a3, hstride]
    simp [construct, g3]
  have hinv := strides_invariant env hspec kf.stride bits k (runEntry env kf) s2 hk
    (by simpa [runEntry] using hbits)
    (by simp only [runEntry, hnone, hhist]; rfl)
    (by simp only [runEntry, hnone]; exact List.nodup_singleton _)
    (by
      intro v hv
      simp only [runEntry, hnone, List.mem_singleton] at hv
      rw [hv, hstride]
      exact g1)
    hlen
  refine ⟨?_, hinv.2.1, hinv.2.2, hinv.1⟩
  rw [← a3]
  exact hhist

theorem random_strides_never_repeat_witness :
    restrides randomFinder.trace = [] ∧
    (afterPasses drawEnv 3 (runEntry drawEnv randomFinder)).map
      (fun s => randomFinder.stride :: restrides s.kf.trace) = some [0, 1, 2, 3] ∧
    (restrides ((afterPasses drawEnv 3 (runEntry drawEnv randomFinder)).getD
      (runEntry drawEnv randomFinder)).kf.trace).length < 2 ^ 2 ∧
    (randomFinder.stride :: restrides ((afterPasses drawEnv 3
      (runEntry drawEnv randomFinder)).getD (runEntry drawEnv randomFinder)).kf.trace).Nodup :=
  ⟨by decide, by decide, by decide,
    (random_strides_never_repeat drawEnv drawEnv_drawsBySpec 1 100 1
      { cursor := 0, step := 0, clock := 0, script := [], seed := 5 } 1 true 2 false 0
      randomFinder 3
      ((afterPasses drawEnv 3 (runEntry drawEnv randomFinder)).getD
        (runEntry drawEnv randomFinder))
      ⟨rfl, rfl, rfl⟩ rfl (by decide) rfl (by decide)).2.1⟩

/-! ### End to end on a device that meets the contract -/

end KeyFinder
